import Mathlib

/-!
Verification of the SCTP association core (`crates/sctp/src/association.rs`).

The definitions below are a shallow embedding of the association state
machine: 32-bit quantities are natural numbers reduced modulo `2^32` at
every wrapping operation, the TSN-indexed queues are association lists,
and each Rust method that mutates `&mut self` becomes a function from the
association state to a new state (paired with its return value).  Code
that lives outside `association.rs` (serial-number arithmetic helpers,
the payload/pending queues, timers, streams) is modelled from the
specification; every such definition carries a doc comment saying so.
-/

namespace Sctp

/-! ## Definitions -/

/-- 2^32, the modulus of TSN/RSN arithmetic. -/
def tsnMod : Nat := 4294967296

/-- 2^31, the half-window of serial-number comparison. -/
def tsnHalf : Nat := 2147483648

/-- Reduce a natural number modulo 2^32 (u32 wrapping arithmetic). -/
def w32 (n : Nat) : Nat := n % tsnMod

/-- Modelled from the spec (glossary, util.rs is not in the sources):
serial-number less-than, a < b iff (b - a) mod 2^32 lies in (0, 2^31). -/
def sna32lt (a b : Nat) : Bool :=
  let d := (b + tsnMod - a % tsnMod) % tsnMod
  0 < d && d < tsnHalf

/-- Modelled from the spec: serial-number greater-than. -/
def sna32gt (a b : Nat) : Bool := sna32lt b a

/-- Modelled from the spec: serial-number less-than-or-equal. -/
def sna32lte (a b : Nat) : Bool := (a % tsnMod == b % tsnMod) || sna32lt a b

/-- Modelled from the spec: serial-number greater-than-or-equal. -/
def sna32gte (a b : Nat) : Bool := (a % tsnMod == b % tsnMod) || sna32gt a b

/-- Association state enum (association.rs). -/
inductive AssociationState where
  | Closed
  | CookieWait
  | CookieEchoed
  | Established
  | ShutdownAckSent
  | ShutdownPending
  | ShutdownReceived
  | ShutdownSent
deriving DecidableEq

/-- Retransmission timer IDs (association.rs). -/
inductive RtxTimerId where
  | T1Init
  | T1Cookie
  | T2Shutdown
  | T3RTX
  | Reconfig
deriving DecidableEq

/-- Ack mode (association.rs). -/
inductive AckMode where
  | Normal
  | NoDelay
  | AlwaysDelay
deriving DecidableEq

/-- Ack transmission state (association.rs). -/
inductive AckState where
  | Idle
  | Immediate
  | Delay
deriving DecidableEq

/-- Reliability policy of a stream (stream.rs, modelled from the spec). -/
inductive ReliabilityType where
  | Reliable
  | Rexmit
  | Timed
deriving DecidableEq

/-- Errors of association.rs that the embedded fragment can produce. -/
inductive SctpError where
  | errInflightQueueTsnPop
  | errTsnRequestNotExist
  | errInitNotStoredToSend
  | errCookieEchoNotStoredToSend
deriving DecidableEq

/-- Result of processing a RECONFIG outgoing-reset request
(param_reconfig_response, modelled from the spec). -/
inductive ReconfigResult where
  | SuccessPerformed
  | InProgress
deriving DecidableEq

/-- ChunkPayloadData: a DATA chunk plus its sender-side bookkeeping.
User data is represented by its byte length (`userDataLen`); `since`
is an abstract millisecond timestamp standing for the `Instant` of the
first send; the shared abandoned flag is modelled as a plain field
(spec design note 3). -/
structure ChunkPayloadData where
  tsn : Nat := 0
  stream_identifier : Nat := 0
  stream_sequence_number : Nat := 0
  payload_type : Nat := 0
  userDataLen : Nat := 0
  beginning_fragment : Bool := false
  ending_fragment : Bool := false
  unordered : Bool := false
  immediate_sack : Bool := false
  acked : Bool := false
  retransmit : Bool := false
  miss_indicator : Nat := 0
  nsent : Nat := 0
  since : Nat := 0
  abandoned_flag : Bool := false
  all_inflight : Bool := false
deriving DecidableEq

/-- PPID of DCEP messages (always treated as reliable). -/
def dcepPpid : Nat := 50

/-- Modelled from the spec (design note 3): the chunk's abandoned
accessor reads the flag set under the association lock. -/
def ChunkPayloadData.abandoned (c : ChunkPayloadData) : Bool := c.abandoned_flag

/-- Modelled from the spec: PayloadQueue is an ordered map TSN -> chunk;
we keep the chunks as a list and look entries up by TSN. -/
structure PayloadQueue where
  chunks : List ChunkPayloadData := []
deriving DecidableEq

/-- Modelled from the spec: number of entries. -/
def PayloadQueue.len (q : PayloadQueue) : Nat := q.chunks.length

/-- Modelled from the spec: byte count of the queue; acked entries have
had their user data cleared, so they no longer count. -/
def PayloadQueue.get_num_bytes (q : PayloadQueue) : Nat :=
  (q.chunks.map (fun c => c.userDataLen)).sum

/-- Modelled from the spec: look up the chunk stored under a TSN. -/
def PayloadQueue.get (q : PayloadQueue) (tsn : Nat) : Option ChunkPayloadData :=
  q.chunks.find? (fun c => c.tsn == tsn)

/-- Modelled from the spec: remove and return the chunk stored under a
TSN. -/
def PayloadQueue.pop (q : PayloadQueue) (tsn : Nat) :
    Option ChunkPayloadData × PayloadQueue :=
  match q.get tsn with
  | none => (none, q)
  | some c => (some c, ⟨q.chunks.eraseP (fun c => c.tsn == tsn)⟩)

/-- Replace the first chunk carrying a TSN (a map holds one entry per
key, and lookups return the first match). -/
def update_first (tsn : Nat) (f : ChunkPayloadData → ChunkPayloadData) :
    List ChunkPayloadData → List ChunkPayloadData
  | [] => []
  | c :: rest =>
      if c.tsn == tsn then f c :: rest else c :: update_first tsn f rest

/-- Modelled from the spec: replace the chunk stored under a TSN. -/
def PayloadQueue.update (q : PayloadQueue) (tsn : Nat)
    (f : ChunkPayloadData → ChunkPayloadData) : PayloadQueue :=
  ⟨update_first tsn f q.chunks⟩

/-- Modelled from the spec: mark a chunk as acked, clear its user data
(the acked bytes stop counting toward the queue's byte total) and
return the number of bytes that were acked. -/
def PayloadQueue.mark_as_acked (q : PayloadQueue) (tsn : Nat) :
    Nat × PayloadQueue :=
  match q.get tsn with
  | none => (0, q)
  | some c =>
      (c.userDataLen,
       q.update tsn (fun c => { c with acked := true, retransmit := false, userDataLen := 0 }))

/-- Modelled from the spec (testable property: abandoned chunks never
retransmit): set the retransmit flag on every chunk that is neither
acked nor abandoned. -/
def PayloadQueue.mark_all_to_retrasmit (q : PayloadQueue) : PayloadQueue :=
  ⟨q.chunks.map (fun c =>
      if c.acked || c.abandoned then c else { c with retransmit := true })⟩

/-- Modelled from the spec: append a chunk without window checks. -/
def PayloadQueue.push_no_check (q : PayloadQueue) (c : ChunkPayloadData) : PayloadQueue :=
  ⟨q.chunks ++ [c]⟩

/-- Modelled from the spec: PendingQueue is two FIFOs (ordered and
unordered) with head selection constrained by the beginning-fragment
rule; the unordered FIFO is served first.  `selected` is true while a
fragmented message has started transmission and its remaining
fragments must be drained before any other message. -/
structure PendingQueue where
  unordered_queue : List ChunkPayloadData := []
  ordered_queue : List ChunkPayloadData := []
  selected : Bool := false
  unordered_is_selected : Bool := false
deriving DecidableEq

/-- Modelled from the spec: number of queued chunks. -/
def PendingQueue.len (q : PendingQueue) : Nat :=
  q.unordered_queue.length + q.ordered_queue.length

/-- Modelled from the spec: route a chunk to its FIFO by the unordered
bit. -/
def PendingQueue.push (q : PendingQueue) (c : ChunkPayloadData) : PendingQueue :=
  if c.unordered then { q with unordered_queue := q.unordered_queue ++ [c] }
  else { q with ordered_queue := q.ordered_queue ++ [c] }

/-- Modelled from the spec: look at the chunk the fragmentation rule
would pop next. -/
def PendingQueue.peek (q : PendingQueue) : Option ChunkPayloadData :=
  if q.selected then
    if q.unordered_is_selected then q.unordered_queue.head?
    else q.ordered_queue.head?
  else
    match q.unordered_queue.head? with
    | some c => some c
    | none => q.ordered_queue.head?

/-- Modelled from the spec: pop the head respecting the
beginning-fragment rule.  While a fragmented message is selected, its
FIFO keeps being drained (and deselects after the ending fragment);
otherwise only a beginning fragment may start, selecting its FIFO when
the message has more fragments to come. -/
def PendingQueue.pop (q : PendingQueue) (beginning_fragment unordered : Bool) :
    Option ChunkPayloadData × PendingQueue :=
  if q.selected then
    if q.unordered_is_selected then
      match q.unordered_queue with
      | [] => (none, q)
      | c :: rest =>
          (some c, { q with unordered_queue := rest,
                            selected := !c.ending_fragment })
    else
      match q.ordered_queue with
      | [] => (none, q)
      | c :: rest =>
          (some c, { q with ordered_queue := rest,
                            selected := !c.ending_fragment })
  else
    if !beginning_fragment then (none, q)
    else if unordered then
      match q.unordered_queue with
      | [] => (none, q)
      | c :: rest =>
          (some c, { q with unordered_queue := rest,
                            selected := !c.ending_fragment,
                            unordered_is_selected := true })
    else
      match q.ordered_queue with
      | [] => (none, q)
      | c :: rest =>
          (some c, { q with ordered_queue := rest,
                            selected := !c.ending_fragment,
                            unordered_is_selected := false })

/-- Modelled from the spec: a stream's association-facing state.  The
reassembly queue lives outside association.rs; only the notifications
the association sends it are recorded (`forwarded_ordered_ssn`,
`forwarded_unordered_tsn`), and `buffered_amount` stands for the
stream's outbound buffer accounting that `on_buffer_released`
decrements. -/
structure Stream where
  stream_identifier : Nat := 0
  reliability_type : ReliabilityType := ReliabilityType.Reliable
  reliability_value : Nat := 0
  buffered_amount : Nat := 0
  forwarded_ordered_ssn : Option Nat := none
  forwarded_unordered_tsn : Option Nat := none
deriving DecidableEq

/-- Modelled from the spec: release acknowledged bytes from the
stream's outbound buffer accounting. -/
def Stream.on_buffer_released (s : Stream) (nBytes : Nat) : Stream :=
  { s with buffered_amount := s.buffered_amount - nBytes }

/-- Modelled from the spec: record the abandoned largest ordered SSN
reported by a FORWARD-TSN so the reassembly queue can drop it. -/
def Stream.handle_forward_tsn_for_ordered (s : Stream) (ssn : Nat) : Stream :=
  { s with forwarded_ordered_ssn := some ssn }

/-- Modelled from the spec: broadcast the new cumulative TSN for
unordered cleanup. -/
def Stream.handle_forward_tsn_for_unordered (s : Stream) (newCumulativeTsn : Nat) : Stream :=
  { s with forwarded_unordered_tsn := some newCumulativeTsn }

/-- An outgoing reset request parameter carried in a RECONFIG chunk
(param_outgoing_reset_request, modelled from the spec). -/
structure ParamOutgoingResetRequest where
  reconfig_request_sequence_number : Nat := 0
  sender_last_tsn : Nat := 0
  stream_identifiers : List Nat := []
deriving DecidableEq

/-- An inbound FORWARD-TSN chunk (chunk_forward_tsn): the new
cumulative TSN and the (stream id, largest abandoned SSN) pairs. -/
structure ChunkForwardTsn where
  new_cumulative_tsn : Nat := 0
  streams : List (Nat × Nat) := []
deriving DecidableEq

/-- A gap-ack block of a SACK, offsets from the cumulative TSN ack. -/
structure GapAckBlock where
  start : Nat := 0
  ending : Nat := 0
deriving DecidableEq

/-- An inbound SACK chunk (chunk_selective_ack). -/
structure ChunkSelectiveAck where
  cumulative_tsn_ack : Nat := 0
  advertised_receiver_window_credit : Nat := 0
  gap_ack_blocks : List GapAckBlock := []
  duplicate_tsn : List Nat := []
deriving DecidableEq

/-- The chunks the embedded fragment can emit; codecs are external
collaborators, so an outbound chunk is kept symbolic rather than
serialized. -/
inductive OChunk where
  | init
  | cookieEcho
  | reconfigResponse (seq : Nat) (result : ReconfigResult)
  | errorUnrecognizedChunkType
  | shutdown (cumulative_tsn_ack : Nat)
  | shutdownAck
  | shutdownComplete
  | forwardTsn (c : ChunkForwardTsn)
  | payload (c : ChunkPayloadData)
deriving DecidableEq

/-- An outbound SCTP packet. -/
structure Packet where
  verification_tag : Nat := 0
  source_port : Nat := 0
  destination_port : Nat := 0
  chunks : List OChunk := []
deriving DecidableEq

/-- The association TCB (association.rs).  Timers are modelled by their
running flag, the stored INIT/COOKIE-ECHO chunks by presence flags, the
write-loop wakeup by the boolean `awoken` (the one-slot coalescing
signal), and every call to RtoManager::set_new_rtt is recorded in
`rtt_measured_tsns` (the TSN that triggered the RTT measurement);
`now` is the ambient time in milliseconds. -/
structure Association where
  state : AssociationState := AssociationState.Closed
  my_next_tsn : Nat := 0
  peer_last_tsn : Nat := 0
  min_tsn2measure_rtt : Nat := 0
  will_send_forward_tsn : Bool := false
  will_retransmit_fast : Bool := false
  will_retransmit_reconfig : Bool := false
  will_send_shutdown : Bool := false
  will_send_shutdown_ack : Bool := false
  will_send_shutdown_complete : Bool := false
  my_next_rsn : Nat := 0
  reconfig_requests : List (Nat × ParamOutgoingResetRequest) := []
  source_port : Nat := 0
  destination_port : Nat := 0
  peer_verification_tag : Nat := 0
  payload_queue : PayloadQueue := {}
  inflight_queue : PayloadQueue := {}
  pending_queue : PendingQueue := {}
  control_queue : List Packet := []
  mtu : Nat := 1228
  cumulative_tsn_ack_point : Nat := 0
  advanced_peer_tsn_ack_point : Nat := 0
  use_forward_tsn : Bool := false
  cwnd : Nat := 0
  rwnd : Nat := 0
  ssthresh : Nat := 0
  partial_bytes_acked : Nat := 0
  in_fast_recovery : Bool := false
  fast_recover_exit_point : Nat := 0
  stored_init : Bool := false
  stored_cookie_echo : Bool := false
  t1init_running : Bool := false
  t1cookie_running : Bool := false
  t2shutdown_running : Bool := false
  t3rtx_running : Bool := false
  treconfig_running : Bool := false
  ack_timer_running : Bool := false
  streams : List (Nat × Stream) := []
  ack_state : AckState := AckState.Idle
  ack_mode : AckMode := AckMode.Normal
  num_datas : Nat := 0
  num_sacks : Nat := 0
  num_t3timeouts : Nat := 0
  num_fast_retrans : Nat := 0
  delayed_ack_triggered : Bool := false
  immediate_ack_triggered : Bool := false
  awoken : Bool := false
  rtt_measured_tsns : List Nat := []
  now : Nat := 0
deriving DecidableEq

/-- awake_write_loop: set the one-slot wakeup signal. -/
def awake_write_loop (a : Association) : Association := { a with awoken := true }

/-- set_state. -/
def set_state (a : Association) (newState : AssociationState) : Association :=
  { a with state := newState }

/-- create_packet wraps chunks in a packet. -/
def create_packet (a : Association) (chunks : List OChunk) : Packet :=
  { verification_tag := a.peer_verification_tag
    source_port := a.source_port
    destination_port := a.destination_port
    chunks := chunks }

/-- generate_next_tsn returns my_next_tsn and increments it (u32
wrapping). -/
def generate_next_tsn (a : Association) : Nat × Association :=
  (a.my_next_tsn, { a with my_next_tsn := w32 (a.my_next_tsn + 1) })

/-- generate_next_rsn returns my_next_rsn and increments it. -/
def generate_next_rsn (a : Association) : Nat × Association :=
  (a.my_next_rsn, { a with my_next_rsn := w32 (a.my_next_rsn + 1) })

/-- unregister_stream removes a stream from the association. -/
def unregister_stream (a : Association) (stream_identifier : Nat) : Association :=
  { a with streams := a.streams.filter (fun q => q.1 ≠ stream_identifier) }

/-- send_init: queue the stored INIT on the control queue. -/
def send_init (a : Association) : Association × Except SctpError Unit :=
  if a.stored_init then
    let outbound : Packet :=
      { source_port := a.source_port
        destination_port := a.destination_port
        verification_tag := a.peer_verification_tag
        chunks := [OChunk.init] }
    (awake_write_loop { a with control_queue := a.control_queue ++ [outbound] }, Except.ok ())
  else (a, Except.error SctpError.errInitNotStoredToSend)

/-- send_cookie_echo: queue the stored COOKIE-ECHO on the control
queue. -/
def send_cookie_echo (a : Association) : Association × Except SctpError Unit :=
  if a.stored_cookie_echo then
    let outbound : Packet :=
      { source_port := a.source_port
        destination_port := a.destination_port
        verification_tag := a.peer_verification_tag
        chunks := [OChunk.cookieEcho] }
    (awake_write_loop { a with control_queue := a.control_queue ++ [outbound] }, Except.ok ())
  else (a, Except.error SctpError.errCookieEchoNotStoredToSend)

/-- reset_streams_if_any: execute or defer a stored outgoing-reset
request, emitting its RECONFIG response packet. -/
def reset_streams_if_any (a : Association) (p : ParamOutgoingResetRequest) :
    Association × Packet :=
  let (a, result) :=
    if sna32lte p.sender_last_tsn a.peer_last_tsn then
      let a := p.stream_identifiers.foldl (fun (a : Association) id =>
          match a.streams.find? (fun q => q.1 == id) with
          | some q => unregister_stream a q.2.stream_identifier
          | none => a) a
      let a := { a with reconfig_requests :=
          a.reconfig_requests.filter (fun q => q.1 ≠ p.reconfig_request_sequence_number) }
      (a, ReconfigResult.SuccessPerformed)
    else (a, ReconfigResult.InProgress)
  (a, create_packet a
      [OChunk.reconfigResponse p.reconfig_request_sequence_number result])

/-- The advance loop of handle_peer_last_tsn_and_acknowledgement,
exactly as written in the source: while payload_queue.pop(peer_last_tsn
+ 1) returns None, increment peer_last_tsn and re-drive every stored
outgoing-reset request.  (Note the source pops inside the loop
condition, so the chunk found at exit is removed and discarded.)  The
Rust loop is unbounded; `fuel` bounds the recursion and `none` reports
exhaustion. -/
def advance_peer_last_tsn_loop :
    Nat → Association → List Packet → Option (Association × List Packet)
  | 0, _, _ => none
  | fuel + 1, a, reply =>
      let (popped, q) := a.payload_queue.pop (w32 (a.peer_last_tsn + 1))
      let a := { a with payload_queue := q }
      match popped with
      | some _ => some (a, reply)
      | none =>
          let a := { a with peer_last_tsn := w32 (a.peer_last_tsn + 1) }
          let rst_reqs := a.reconfig_requests.map (fun q => q.2)
          let (a, reply) := rst_reqs.foldl
              (fun (ar : Association × List Packet) rst_req =>
                let (a, resp) := reset_streams_if_any ar.1 rst_req
                (a, ar.2 ++ [resp])) (a, reply)
          advance_peer_last_tsn_loop fuel a reply

/-- handle_peer_last_tsn_and_acknowledgement: the common routine of
handle_data and handle_forward_tsn. -/
def handle_peer_last_tsn_and_acknowledgement (fuel : Nat) (a : Association)
    (sack_immediately : Bool) : Option (Association × List Packet) :=
  match advance_peer_last_tsn_loop fuel a [] with
  | none => none
  | some (a, reply) =>
      let has_packet_loss := a.payload_queue.len > 0
      let a :=
        if (a.ack_state ≠ AckState.Immediate ∧ sack_immediately = false ∧
            has_packet_loss = false ∧ a.ack_mode = AckMode.Normal) ∨
            a.ack_mode = AckMode.AlwaysDelay then
          if a.ack_state = AckState.Idle then { a with delayed_ack_triggered := true }
          else { a with immediate_ack_triggered := true }
        else { a with immediate_ack_triggered := true }
      some (a, reply)

/-- Add acked bytes to the per-stream tally (the Rust HashMap entry
update, kept as an association list). -/
def add_bytes_acked (m : List (Nat × Nat)) (si nBytes : Nat) : List (Nat × Nat) :=
  if (m.find? (fun q => q.1 == si)).isSome then
    m.map (fun q => if q.1 == si then (q.1, q.2 + nBytes) else q)
  else m ++ [(si, nBytes)]

/-- Record an RTT measurement: RtoManager::set_new_rtt runs and
min_tsn2measure_rtt is reset to my_next_tsn (one sample per RTT). -/
def measure_rtt (a : Association) (tsn : Nat) : Association :=
  { a with min_tsn2measure_rtt := a.my_next_tsn
           rtt_measured_tsns := a.rtt_measured_tsns ++ [tsn] }

/-- The cumulative-ack region of process_selective_ack: pop every TSN
from cumulative_tsn_ack_point+1 up to the SACK's cumulative ack from
the inflight queue.  `none` is fuel exhaustion. -/
def cum_ack_loop :
    Nat → Association → ChunkSelectiveAck → Nat → List (Nat × Nat) →
    Option (Association × Except SctpError (List (Nat × Nat)))
  | 0, _, _, _, _ => none
  | fuel + 1, a, d, i, acc =>
      if sna32lte i d.cumulative_tsn_ack then
        let (popped, q) := a.inflight_queue.pop i
        match popped with
        | none => some (a, Except.error SctpError.errInflightQueueTsnPop)
        | some c =>
            let a := { a with inflight_queue := q }
            let (a, acc) :=
              if c.acked = false then
                let a := if i = w32 (a.cumulative_tsn_ack_point + 1) then
                    { a with t3rtx_running := false }
                  else a
                let acc := add_bytes_acked acc c.stream_identifier c.userDataLen
                let a := if c.nsent = 1 ∧ sna32gte c.tsn a.min_tsn2measure_rtt then
                    measure_rtt a c.tsn
                  else a
                (a, acc)
              else (a, acc)
            let a := if a.in_fast_recovery ∧ c.tsn = a.fast_recover_exit_point then
                { a with in_fast_recovery := false }
              else a
            cum_ack_loop fuel a d (w32 (i + 1)) acc
      else some (a, Except.ok acc)

/-- The offsets a SACK's gap-ack blocks enumerate (g.start..=g.end for
each block, in order). -/
def gap_ack_offsets (d : ChunkSelectiveAck) : List Nat :=
  d.gap_ack_blocks.flatMap (fun g => (List.range (g.ending + 1 - g.start)).map (fun k => g.start + k))

/-- The gap-ack region of process_selective_ack: mark selectively
acknowledged chunks as acked, tally bytes, measure RTT, and track the
highest TSN newly acked (htna). -/
def gap_ack_loop :
    Association → ChunkSelectiveAck → List Nat → List (Nat × Nat) → Nat →
    Association × Except SctpError (List (Nat × Nat) × Nat)
  | a, _, [], acc, htna => (a, Except.ok (acc, htna))
  | a, d, i :: rest, acc, htna =>
      let tsn := w32 (d.cumulative_tsn_ack + i)
      let (is_existed, is_acked) :=
        match a.inflight_queue.get tsn with
        | some c => (true, c.acked)
        | none => (false, false)
      let (n_bytes_acked, a) :=
        if is_existed ∧ is_acked = false then
          let (n, q) := a.inflight_queue.mark_as_acked tsn
          (n, { a with inflight_queue := q })
        else (0, a)
      match a.inflight_queue.get tsn with
      | some c =>
          if is_acked = false then
            let acc := add_bytes_acked acc c.stream_identifier n_bytes_acked
            let a := if c.nsent = 1 then measure_rtt a c.tsn else a
            let htna := if sna32lt htna tsn then tsn else htna
            gap_ack_loop a d rest acc htna
          else gap_ack_loop a d rest acc htna
      | none => (a, Except.error SctpError.errTsnRequestNotExist)

/-- process_selective_ack: cumulative region then gap-ack blocks;
returns the per-stream acked byte tally and the htna. -/
def process_selective_ack (fuel : Nat) (a : Association) (d : ChunkSelectiveAck) :
    Option (Association × Except SctpError (List (Nat × Nat) × Nat)) :=
  match cum_ack_loop fuel a d (w32 (a.cumulative_tsn_ack_point + 1)) [] with
  | none => none
  | some (a, Except.error e) => some (a, Except.error e)
  | some (a, Except.ok acc) =>
      some (gap_ack_loop a d (gap_ack_offsets d) acc d.cumulative_tsn_ack)

/-- on_cumulative_tsn_ack_point_advanced: T3-rtx bookkeeping and the
slow-start / congestion-avoidance cwnd update. -/
def on_cumulative_tsn_ack_point_advanced (a : Association) (total_bytes_acked : Nat) :
    Association :=
  let a := if a.inflight_queue.len = 0 then { a with t3rtx_running := false } else a
  if a.cwnd ≤ a.ssthresh then
    if a.in_fast_recovery = false ∧ a.pending_queue.len > 0 then
      { a with cwnd := w32 (a.cwnd + min total_bytes_acked a.cwnd) }
    else a
  else
    let a := { a with partial_bytes_acked := w32 (a.partial_bytes_acked + total_bytes_acked) }
    if a.cwnd ≤ a.partial_bytes_acked ∧ a.pending_queue.len > 0 then
      { a with partial_bytes_acked := a.partial_bytes_acked - a.cwnd
               cwnd := w32 (a.cwnd + a.mtu) }
    else a

/-- The miss-indicator loop of process_fast_retransmission: walk the
TSNs the SACK reported missing, increment their miss indicators, and
enter fast recovery when one reaches 3 while not already in fast
recovery.  `none` is fuel exhaustion. -/
def pfr_loop :
    Nat → Association → Nat → Nat → Nat → Option (Association × Option SctpError)
  | 0, _, _, _, _ => none
  | fuel + 1, a, tsn, max_tsn, htna =>
      if sna32lt tsn max_tsn then
        match a.inflight_queue.get tsn with
        | none => some (a, some SctpError.errTsnRequestNotExist)
        | some c =>
            let a :=
              if c.acked = false ∧ c.abandoned = false ∧ c.miss_indicator < 3 then
                let c' := { c with miss_indicator := c.miss_indicator + 1 }
                let a := { a with inflight_queue := a.inflight_queue.update tsn (fun _ => c') }
                if c'.miss_indicator = 3 ∧ a.in_fast_recovery = false then
                  let v := max (a.cwnd / 2) (4 * a.mtu)
                  { a with in_fast_recovery := true
                           fast_recover_exit_point := htna
                           ssthresh := v
                           cwnd := v
                           partial_bytes_acked := 0
                           will_retransmit_fast := true }
                else a
              else a
            pfr_loop fuel a (w32 (tsn + 1)) max_tsn htna
      else some (a, none)

/-- The bound of the miss-indicator loop: up to the htna when not in
fast recovery, otherwise over every TSN the SACK could report
missing. -/
def pfr_max_tsn (a : Association) (cum_tsn_ack_point htna : Nat) : Nat :=
  if a.in_fast_recovery = false then htna
  else w32 (cum_tsn_ack_point + a.inflight_queue.len + 1)

/-- process_fast_retransmission (RFC 4960 sec 7.2.4 HTNA algorithm).
When the loop is skipped (in fast recovery without a cumulative-ack
advance) the trailing will_retransmit_fast update is a no-op, so the
association is returned unchanged. -/
def process_fast_retransmission (fuel : Nat) (a : Association)
    (cum_tsn_ack_point htna : Nat) (cum_tsn_ack_point_advanced : Bool) :
    Option (Association × Option SctpError) :=
  if a.in_fast_recovery = false ∨ cum_tsn_ack_point_advanced = true then
    match pfr_loop fuel a (w32 (cum_tsn_ack_point + 1))
        (pfr_max_tsn a cum_tsn_ack_point htna) htna with
    | none => none
    | some (a, some e) => some (a, some e)
    | some (a, none) =>
        let a := if a.in_fast_recovery ∧ cum_tsn_ack_point_advanced = true then
            { a with will_retransmit_fast := true }
          else a
        some (a, none)
  else some (a, none)

/-- postprocess_sack: restart T3 or schedule the shutdown family when
nothing is left in flight, then wake the write loop if needed. -/
def postprocess_sack (a : Association) (stateAtEntry : AssociationState)
    (cum_tsn_ack_point_advanced : Bool) : Association :=
  if a.inflight_queue.len > 0 then
    if cum_tsn_ack_point_advanced then awake_write_loop a else a
  else if stateAtEntry = AssociationState.ShutdownPending then
    awake_write_loop (set_state { a with will_send_shutdown := true }
      AssociationState.ShutdownSent)
  else if stateAtEntry = AssociationState.ShutdownReceived then
    awake_write_loop (set_state { a with will_send_shutdown_ack := true }
      AssociationState.ShutdownAckSent)
  else if cum_tsn_ack_point_advanced then awake_write_loop a
  else a

/-- The RFC 3758 Sec 3.5 C2 loop: advance a TSN point past consecutive
abandoned inflight chunks.  The Rust loop is unbounded; `fuel` bounds
the recursion (returning the point reached so far on exhaustion). -/
def advance_past_abandoned (q : PayloadQueue) : Nat → Nat → Nat
  | 0, point => point
  | fuel + 1, point =>
      match q.get (w32 (point + 1)) with
      | none => point
      | some c =>
          if c.abandoned = false then point
          else advance_past_abandoned q fuel (w32 (point + 1))

/-- The use_forward_tsn block of handle_sack (RFC 3758 Sec 3.5 C1-C3). -/
def sack_forward_tsn_block (a : Association) : Association :=
  let a := if sna32lt a.advanced_peer_tsn_ack_point a.cumulative_tsn_ack_point then
      { a with advanced_peer_tsn_ack_point := a.cumulative_tsn_ack_point }
    else a
  let a := { a with advanced_peer_tsn_ack_point :=
      advance_past_abandoned a.inflight_queue tsnMod a.advanced_peer_tsn_ack_point }
  let a := if sna32gt a.advanced_peer_tsn_ack_point a.cumulative_tsn_ack_point then
      { a with will_send_forward_tsn := true }
    else a
  awake_write_loop a

/-- The total of the per-stream acked byte tally. -/
def total_bytes (m : List (Nat × Nat)) : Nat := (m.map (fun q => q.2)).sum

/-- The cumulative-ack advance step of handle_sack: when the SACK's
cumulative ack is serially ahead, move the ack point and run the
congestion-control update. -/
def sack_cum_advance (a : Association) (d : ChunkSelectiveAck)
    (total_bytes_acked : Nat) : Association × Bool :=
  if sna32lt a.cumulative_tsn_ack_point d.cumulative_tsn_ack then
    (on_cumulative_tsn_ack_point_advanced
      { a with cumulative_tsn_ack_point := d.cumulative_tsn_ack }
      total_bytes_acked, true)
  else (a, false)

/-- The per-stream buffer release step of handle_sack. -/
def release_streams (a : Association) (m : List (Nat × Nat)) : Association :=
  m.foldl (fun (a : Association) q =>
    { a with streams := a.streams.map (fun p =>
        if p.1 == q.1 then (p.1, p.2.on_buffer_released q.2) else p) }) a

/-- The rwnd update of handle_sack (RFC 4960 sec 6.2.1 D ii): the new
a_rwnd minus the bytes still outstanding, floored at zero. -/
def update_rwnd (a : Association) (a_rwnd : Nat) : Association :=
  if a_rwnd ≤ a.inflight_queue.get_num_bytes then { a with rwnd := 0 }
  else { a with rwnd := a_rwnd - a.inflight_queue.get_num_bytes }

/-- handle_sack: the full SACK processing pipeline.  The returned pair
carries the mutated association (Rust mutates self in place even on
the error paths) and the error, if any; `none` is fuel exhaustion. -/
def handle_sack (fuel : Nat) (a : Association) (d : ChunkSelectiveAck) :
    Option (Association × Option SctpError) :=
  let stateAtEntry := a.state
  if stateAtEntry ≠ AssociationState.Established ∧
     stateAtEntry ≠ AssociationState.ShutdownPending ∧
     stateAtEntry ≠ AssociationState.ShutdownReceived then
    some (a, none)
  else
    let a := { a with num_sacks := a.num_sacks + 1 }
    if sna32gt a.cumulative_tsn_ack_point d.cumulative_tsn_ack then
      some (a, none)
    else
      match process_selective_ack fuel a d with
      | none => none
      | some (a, Except.error e) => some (a, some e)
      | some (a, Except.ok (bytes_acked_per_stream, htna)) =>
          match sack_cum_advance a d (total_bytes bytes_acked_per_stream) with
          | (a, cum_tsn_ack_point_advanced) =>
            let a := release_streams a bytes_acked_per_stream
            let a := update_rwnd a d.advertised_receiver_window_credit
            match process_fast_retransmission fuel a d.cumulative_tsn_ack htna
                cum_tsn_ack_point_advanced with
            | none => none
            | some (a, some e) => some (a, some e)
            | some (a, none) =>
                let a := if a.use_forward_tsn then sack_forward_tsn_block a else a
                some (postprocess_sack a stateAtEntry cum_tsn_ack_point_advanced, none)

/-- handle_shutdown_ack: in ShutdownSent or ShutdownAckSent, stop
T2-shutdown, schedule SHUTDOWN-COMPLETE and wake the write loop. -/
def handle_shutdown_ack (a : Association) : Association :=
  if a.state = AssociationState.ShutdownSent ∨
     a.state = AssociationState.ShutdownAckSent then
    awake_write_loop { a with t2shutdown_running := false
                              will_send_shutdown_complete := true }
  else a

/-- gather_outbound_shutdown_packets: emit at most one of SHUTDOWN /
SHUTDOWN-ACK / SHUTDOWN-COMPLETE, clearing its intent flag; emitting
SHUTDOWN-COMPLETE returns ok = false (close after the final send).
Serialization is an external codec and is modelled as always
succeeding. -/
def gather_outbound_shutdown_packets (a : Association) (raw_packets : List Packet) :
    Association × List Packet × Bool :=
  if a.will_send_shutdown then
    let a := { a with will_send_shutdown := false }
    (a, raw_packets ++ [create_packet a [OChunk.shutdown a.cumulative_tsn_ack_point]], true)
  else if a.will_send_shutdown_ack then
    let a := { a with will_send_shutdown_ack := false }
    (a, raw_packets ++ [create_packet a [OChunk.shutdownAck]], true)
  else if a.will_send_shutdown_complete then
    let a := { a with will_send_shutdown_complete := false }
    (a, raw_packets ++ [create_packet a [OChunk.shutdownComplete]], false)
  else (a, raw_packets, true)

/-- close: transition to Closed and stop every timer. -/
def close_association (a : Association) : Association :=
  { set_state a AssociationState.Closed with
      t1init_running := false
      t1cookie_running := false
      t2shutdown_running := false
      t3rtx_running := false
      treconfig_running := false
      ack_timer_running := false }

/-- Modelled from the spec: one write-loop pass over the shutdown
family (the write loop itself and gather_outbound's per-state dispatch
are only present as commented-out code in association.rs).  The loop
gathers the shutdown packets and, when the gather signals ok = false
(SHUTDOWN-COMPLETE was emitted), closes the association after the
final send. -/
def write_loop_shutdown_pass (a : Association) : Association × List Packet :=
  let (a, packets, ok) := gather_outbound_shutdown_packets a []
  if ok then (a, packets) else (close_association a, packets)

/-- The peer_last_tsn advance loop of handle_forward_tsn: pop every
TSN up to the chunk's new cumulative TSN (entries may be absent).
`none` is fuel exhaustion. -/
def forward_tsn_advance_loop : Nat → Association → Nat → Option Association
  | 0, _, _ => none
  | fuel + 1, a, new_cumulative_tsn =>
      if sna32lt a.peer_last_tsn new_cumulative_tsn then
        let (_, q) := a.payload_queue.pop (w32 (a.peer_last_tsn + 1))
        forward_tsn_advance_loop fuel
          { a with payload_queue := q, peer_last_tsn := w32 (a.peer_last_tsn + 1) }
          new_cumulative_tsn
      else some a

/-- handle_forward_tsn: reject with an ERROR chunk when Forward-TSN
was not negotiated; treat a stale new cumulative TSN as a duplicate
(immediate SACK only); otherwise advance peer_last_tsn, notify the
streams and run the common acknowledgement routine. -/
def handle_forward_tsn (fuel : Nat) (a : Association) (c : ChunkForwardTsn) :
    Option (Association × Option (List Packet)) :=
  if a.use_forward_tsn = false then
    let cerr : Packet :=
      { verification_tag := a.peer_verification_tag
        source_port := a.source_port
        destination_port := a.destination_port
        chunks := [OChunk.errorUnrecognizedChunkType] }
    some (a, some [cerr])
  else
    if sna32lte c.new_cumulative_tsn a.peer_last_tsn then
      some (awake_write_loop { a with ack_state := AckState.Immediate
                                      ack_timer_running := false }, none)
    else
      match forward_tsn_advance_loop fuel a c.new_cumulative_tsn with
      | none => none
      | some a =>
          let a := c.streams.foldl (fun (a : Association) forwarded =>
              { a with streams := a.streams.map (fun p =>
                  if p.1 == forwarded.1 then
                    (p.1, p.2.handle_forward_tsn_for_ordered forwarded.2)
                  else p) }) a
          let a := { a with streams := a.streams.map (fun p =>
              (p.1, p.2.handle_forward_tsn_for_unordered c.new_cumulative_tsn)) }
          match handle_peer_last_tsn_and_acknowledgement fuel a false with
          | none => none
          | some (a, reply) => some (a, some reply)

/-- on_retransmission_timeout: the timer expiry callbacks.  The T3-rtx
branch performs the congestion collapse, marks the inflight queue for
retransmission and advances the advanced peer TSN ack point past
abandoned chunks when Forward-TSN is in use. -/
def on_retransmission_timeout (a : Association) (id : RtxTimerId) (_n_rtos : Nat) :
    Association :=
  match id with
  | RtxTimerId.T1Init => (send_init a).1
  | RtxTimerId.T1Cookie => (send_cookie_echo a).1
  | RtxTimerId.T2Shutdown =>
      match a.state with
      | AssociationState.ShutdownSent =>
          awake_write_loop { a with will_send_shutdown := true }
      | AssociationState.ShutdownAckSent =>
          awake_write_loop { a with will_send_shutdown_ack := true }
      | _ => a
  | RtxTimerId.T3RTX =>
      let a := { a with num_t3timeouts := a.num_t3timeouts + 1 }
      let a := { a with ssthresh := max (a.cwnd / 2) (4 * a.mtu), cwnd := a.mtu }
      let a :=
        if a.use_forward_tsn then
          let a := { a with advanced_peer_tsn_ack_point :=
              advance_past_abandoned a.inflight_queue tsnMod a.advanced_peer_tsn_ack_point }
          if sna32gt a.advanced_peer_tsn_ack_point a.cumulative_tsn_ack_point then
            { a with will_send_forward_tsn := true }
          else a
        else a
      awake_write_loop { a with inflight_queue := a.inflight_queue.mark_all_to_retrasmit }
  | RtxTimerId.Reconfig =>
      awake_write_loop { a with will_retransmit_reconfig := true }

/-- check_partial_reliability_status: apply the stream's reliability
policy to a chunk being (re)sent, possibly marking it abandoned.  DCEP
chunks stay reliable; the Timed policy compares the elapsed time
(now - since) against the policy value. -/
def check_partial_reliability_status (a : Association) (c : ChunkPayloadData) :
    ChunkPayloadData :=
  if a.use_forward_tsn = false then c
  else if c.payload_type = dcepPpid then c
  else
    match a.streams.find? (fun q => q.1 == c.stream_identifier) with
    | none => c
    | some q =>
        if q.2.reliability_type = ReliabilityType.Rexmit then
          if q.2.reliability_value ≤ c.nsent then { c with abandoned_flag := true } else c
        else if q.2.reliability_type = ReliabilityType.Timed then
          if q.2.reliability_value ≤ a.now - c.since then { c with abandoned_flag := true }
          else c
        else c

/-- move_pending_data_chunk_to_inflight_queue: pop the peeked chunk
from the pending queue, stamp it (TSN, send time, nsent = 1, the
all-inflight bit on an ending fragment), evaluate partial reliability
and push it to the inflight queue. -/
def move_pending_data_chunk_to_inflight_queue (a : Association)
    (beginning_fragment unordered : Bool) :
    Option ChunkPayloadData × Association :=
  match a.pending_queue.pop beginning_fragment unordered with
  | (none, q) => (none, { a with pending_queue := q })
  | (some c, q) =>
      let a := { a with pending_queue := q }
      let c := if c.ending_fragment then { c with all_inflight := true } else c
      let (tsn, a) := generate_next_tsn a
      let c := { c with tsn := tsn, since := a.now, nsent := 1 }
      let c := check_partial_reliability_status a c
      (some c, { a with inflight_queue := a.inflight_queue.push_no_check c })

/-- The pop loop of pop_pending_data_chunks_to_send: zero-length
chunks are collected as stream-reset markers; data chunks are promoted
to the inflight queue while cwnd and rwnd allow.  `fuel` bounds the
recursion (the source loop pops one pending chunk per iteration). -/
def pop_pending_loop :
    Nat → Association → List ChunkPayloadData → List Nat →
    List ChunkPayloadData × List Nat × Association
  | 0, a, chunks, sis_to_reset => (chunks, sis_to_reset, a)
  | fuel + 1, a, chunks, sis_to_reset =>
      match a.pending_queue.peek with
      | none => (chunks, sis_to_reset, a)
      | some c =>
          if c.userDataLen = 0 then
            let sis_to_reset := sis_to_reset ++ [c.stream_identifier]
            let (_, q) := a.pending_queue.pop c.beginning_fragment c.unordered
            pop_pending_loop fuel { a with pending_queue := q } chunks sis_to_reset
          else if a.cwnd < a.inflight_queue.get_num_bytes + c.userDataLen then
            (chunks, sis_to_reset, a)
          else if a.rwnd < c.userDataLen then
            (chunks, sis_to_reset, a)
          else
            let a := { a with rwnd := a.rwnd - c.userDataLen }
            match move_pending_data_chunk_to_inflight_queue a
                c.beginning_fragment c.unordered with
            | (some chunk, a) => pop_pending_loop fuel a (chunks ++ [chunk]) sis_to_reset
            | (none, a) => pop_pending_loop fuel a chunks sis_to_reset

/-- pop_pending_data_chunks_to_send: promote pending chunks as far as
cwnd and rwnd allow, and force a single zero-window probe when
nothing could be sent and nothing is in flight. -/
def pop_pending_data_chunks_to_send (a : Association) :
    (List ChunkPayloadData × List Nat) × Association :=
  if a.pending_queue.len = 0 then (([], []), a)
  else
    let (chunks, sis_to_reset, a) := pop_pending_loop a.pending_queue.len a [] []
    if chunks.isEmpty ∧ a.inflight_queue.len = 0 then
      match a.pending_queue.peek with
      | none => ((chunks, sis_to_reset), a)
      | some c =>
          match move_pending_data_chunk_to_inflight_queue a
              c.beginning_fragment c.unordered with
          | (some chunk, a) => ((chunks ++ [chunk], sis_to_reset), a)
          | (none, a) => ((chunks, sis_to_reset), a)
    else ((chunks, sis_to_reset), a)

/-- An association whose payload queue holds exactly TSN
peer_last_tsn + 1, the situation in which the advance loop is supposed
to pop that chunk and advance. -/
def c1_assoc : Association :=
  { peer_last_tsn := 0, payload_queue := ⟨[{ tsn := 1, userDataLen := 3 }]⟩ }

/-- An association in ShutdownSent with the T2-shutdown timer running,
about to receive SHUTDOWN-ACK. -/
def c2_assoc : Association :=
  { state := AssociationState.ShutdownSent, t2shutdown_running := true }

/-- An association about to receive a SACK whose gap-ack block covers
TSN 3 while min_tsn2measure_rtt is 10: TSN 3 is serially below the
measurement threshold, so no RTT sample may be taken for it. -/
def c3_assoc : Association :=
  { state := AssociationState.Established
    cumulative_tsn_ack_point := 2
    min_tsn2measure_rtt := 10
    my_next_tsn := 10
    inflight_queue := ⟨[{ tsn := 3, userDataLen := 4, nsent := 1 }]⟩ }

/-- The SACK gap-acking TSN 3 (cumulative ack 2, one gap block 1..1). -/
def c3_sack : ChunkSelectiveAck :=
  { cumulative_tsn_ack := 2
    advertised_receiver_window_credit := 100
    gap_ack_blocks := [{ start := 1, ending := 1 }] }

/-- An association with 10 unacked bytes in flight, about to accept a
SACK advertising a_rwnd = 5 (smaller than the outstanding bytes). -/
def c4_assoc : Association :=
  { state := AssociationState.Established
    cumulative_tsn_ack_point := 0
    inflight_queue := ⟨[{ tsn := 1, userDataLen := 10, nsent := 1 }]⟩ }

/-- A SACK with a_rwnd = 5 acknowledging nothing new. -/
def c4_sack : ChunkSelectiveAck :=
  { cumulative_tsn_ack := 0, advertised_receiver_window_credit := 5 }

/-- The association of the C4 witness run: 10 unacked bytes in flight
and a SACK advertising a_rwnd = 100. -/
def c4w_assoc : Association :=
  { state := AssociationState.Established
    cumulative_tsn_ack_point := 0
    inflight_queue := ⟨[{ tsn := 1, userDataLen := 10, nsent := 1 }]⟩ }

/-- The SACK of the C4 witness run. -/
def c4w_sack : ChunkSelectiveAck :=
  { cumulative_tsn_ack := 0, advertised_receiver_window_credit := 100 }

/-- The association c4w_assoc ends in after handling c4w_sack. -/
def c4w_result : Association :=
  ((handle_sack 8 c4w_assoc c4w_sack).map (fun r => r.1)).getD {}

/-- One SACK arrival as the sender observes it: the state handle_sack
leaves behind (on fuel exhaustion, which has no Rust counterpart, the
state is kept). -/
def handle_sack_step (fuel : Nat) (a : Association) (d : ChunkSelectiveAck) :
    Association :=
  match handle_sack fuel a d with
  | some r => r.1
  | none => a

/-- The trajectory of association states over a sequence of received
SACKs. -/
def sack_trace (fuel : Nat) : Association → List ChunkSelectiveAck → List Association
  | a, [] => [a]
  | a, d :: rest => a :: sack_trace fuel (handle_sack_step fuel a d) rest

/-- The C8 witness association (ack point 5) and its stale SACK
(cumulative ack 1). -/
def c8w_assoc : Association :=
  { state := AssociationState.Established, cumulative_tsn_ack_point := 5 }

/-- The stale SACK of the C8 witness run. -/
def c8w_sack : ChunkSelectiveAck := { cumulative_tsn_ack := 1 }

/-- The C5 witness association: one inflight chunk with miss indicator
2 about to reach 3. -/
def c5w_assoc : Association :=
  { cwnd := 10000, ssthresh := 4000, mtu := 1000
    inflight_queue := ⟨[{ tsn := 5, userDataLen := 4, miss_indicator := 2, nsent := 1 }]⟩ }

/-- The association c5w_assoc ends in after process_fast_retransmission. -/
def c5w_result : Association :=
  ((process_fast_retransmission 8 c5w_assoc 4 6 false).map (fun r => r.1)).getD {}

/-- An association whose only inflight chunk is abandoned: T3-rtx
expiry leaves its retransmit flag unset. -/
def c6_assoc : Association :=
  { inflight_queue :=
      ⟨[{ tsn := 1, userDataLen := 5, abandoned_flag := true, all_inflight := true }]⟩ }

/-- The C6 witness association: Forward-TSN in use, one abandoned
chunk at TSN 1 followed by a live chunk at TSN 2. -/
def c6w_assoc : Association :=
  { use_forward_tsn := true
    advanced_peer_tsn_ack_point := 0
    cumulative_tsn_ack_point := 0
    cwnd := 3000
    mtu := 1000
    inflight_queue :=
      ⟨[{ tsn := 1, userDataLen := 5, abandoned_flag := true, all_inflight := true },
        { tsn := 2, userDataLen := 7 }]⟩ }

/-- Well-formedness of one pending FIFO: `atBoundary` says whether the
next chunk must be a beginning fragment; each chunk hands the boundary
flag of its ending-fragment bit to its successor, and a FIFO that is
mid-message (atBoundary = false) may not be empty. -/
def chk_frag : Bool → List ChunkPayloadData → Bool
  | atBoundary, [] => atBoundary
  | atBoundary, c :: rest =>
      (c.beginning_fragment == atBoundary) && chk_frag c.ending_fragment rest

/-- Well-formedness of the pending queue: chunks sit in the FIFO of
their unordered bit, and the fragmentation chains agree with the
selection state (the selected FIFO is mid-message, the other FIFOs are
at a message boundary). -/
def PendingQueue.wf (q : PendingQueue) : Bool :=
  q.unordered_queue.all (fun c => c.unordered) &&
  q.ordered_queue.all (fun c => !c.unordered) &&
  (if q.selected then
     (if q.unordered_is_selected then
        chk_frag false q.unordered_queue && chk_frag true q.ordered_queue
      else chk_frag true q.unordered_queue && chk_frag false q.ordered_queue)
   else chk_frag true q.unordered_queue && chk_frag true q.ordered_queue)

/-- A pending queue holding exactly one zero-length chunk (a
stream-reset marker for stream 7) and nothing in flight. -/
def c7_assoc : Association :=
  { pending_queue := { ordered_queue :=
      [{ stream_identifier := 7, beginning_fragment := true, ending_fragment := true }] } }

/-- A single unfragmented data chunk of five bytes on stream 1. -/
def c7w_head : ChunkPayloadData :=
  { stream_identifier := 1, beginning_fragment := true, ending_fragment := true,
    userDataLen := 5 }

/-- An association whose rwnd is zero while a five-byte chunk is
pending, so the loop pops nothing and the probe must fire. -/
def c7w_assoc : Association :=
  { cwnd := 100, rwnd := 0, pending_queue := { ordered_queue := [c7w_head] } }

/-! ## Theorems -/

/-- C1: the advance loop of handle_peer_last_tsn_and_acknowledgement is
inverted in the source (`while ... pop(peer_last_tsn + 1).is_none()`):
with the payload queue holding exactly TSN 1 and peer_last_tsn = 0, the
chunk is popped and discarded but peer_last_tsn stays 0, although the
chunk at peer_last_tsn + 1 was present and the claim requires
peer_last_tsn to advance to 1. -/
theorem c1_advance_loop_inverted :
    c1_assoc.payload_queue.get (w32 (c1_assoc.peer_last_tsn + 1)) ≠ none ∧
    (handle_peer_last_tsn_and_acknowledgement 10 c1_assoc false).map
      (fun r => (r.1.peer_last_tsn, r.1.payload_queue.len, r.2.length)) =
      some (0, 0, 0) := by
  decide

/-- C2 counterexample: handle_shutdown_ack does not move the
association to ShutdownAckSent; in state ShutdownSent the state is left
unchanged, contradicting the claimed ShutdownSent to ShutdownAckSent
transition. -/
theorem c2_no_shutdown_ack_sent_transition :
    (handle_shutdown_ack c2_assoc).state = AssociationState.ShutdownSent ∧
    AssociationState.ShutdownSent ≠ AssociationState.ShutdownAckSent := by
  decide

/-- C2 (amended): in ShutdownSent, with no SHUTDOWN or SHUTDOWN-ACK
send already pending, receiving SHUTDOWN-ACK stops the T2-shutdown
timer, schedules SHUTDOWN-COMPLETE and wakes the write loop while
leaving the state unchanged; the next write-loop pass over the
shutdown family emits exactly one SHUTDOWN-COMPLETE packet and closes
the association, so the state moves directly to Closed. -/
theorem c2_shutdown_ack_completes_and_closes (a : Association)
    (hstate : a.state = AssociationState.ShutdownSent)
    (hs : a.will_send_shutdown = false) (hsa : a.will_send_shutdown_ack = false) :
    (handle_shutdown_ack a).t2shutdown_running = false ∧
    (handle_shutdown_ack a).will_send_shutdown_complete = true ∧
    (handle_shutdown_ack a).state = AssociationState.ShutdownSent ∧
    (handle_shutdown_ack a).awoken = true ∧
    (write_loop_shutdown_pass (handle_shutdown_ack a)).2 =
      [create_packet a [OChunk.shutdownComplete]] ∧
    (write_loop_shutdown_pass (handle_shutdown_ack a)).1.state =
      AssociationState.Closed := by
  unfold handle_shutdown_ack write_loop_shutdown_pass
    gather_outbound_shutdown_packets close_association set_state awake_write_loop
    create_packet
  simp [hstate, hs, hsa]

/-- C2 witness: the amended theorem applied at a concrete
ShutdownSent association. -/
theorem c2_shutdown_ack_completes_and_closes_witness :
    (handle_shutdown_ack c2_assoc).t2shutdown_running = false ∧
    (handle_shutdown_ack c2_assoc).will_send_shutdown_complete = true ∧
    (handle_shutdown_ack c2_assoc).state = AssociationState.ShutdownSent ∧
    (handle_shutdown_ack c2_assoc).awoken = true ∧
    (write_loop_shutdown_pass (handle_shutdown_ack c2_assoc)).2 =
      [create_packet c2_assoc [OChunk.shutdownComplete]] ∧
    (write_loop_shutdown_pass (handle_shutdown_ack c2_assoc)).1.state =
      AssociationState.Closed :=
  c2_shutdown_ack_completes_and_closes c2_assoc rfl rfl rfl

/-- C9: handle_forward_tsn replies with an ERROR chunk carrying the
unrecognized-chunk-type cause and leaves the association untouched
when Forward-TSN was not negotiated; when it was, a new cumulative TSN
at or behind peer_last_tsn is treated as a duplicate: the ack state
becomes Immediate (the ack timer stops, the write loop wakes) and
peer_last_tsn and the payload queue are unchanged. -/
theorem c9_handle_forward_tsn_reject_and_duplicate (fuel : Nat) (a : Association)
    (c : ChunkForwardTsn) :
    (a.use_forward_tsn = false →
      handle_forward_tsn fuel a c =
        some (a, some [{ verification_tag := a.peer_verification_tag
                         source_port := a.source_port
                         destination_port := a.destination_port
                         chunks := [OChunk.errorUnrecognizedChunkType] }])) ∧
    (a.use_forward_tsn = true →
      sna32lte c.new_cumulative_tsn a.peer_last_tsn = true →
      handle_forward_tsn fuel a c =
        some (awake_write_loop { a with ack_state := AckState.Immediate
                                        ack_timer_running := false }, none) ∧
      (handle_forward_tsn fuel a c).map (fun r => r.1.peer_last_tsn) =
        some a.peer_last_tsn ∧
      (handle_forward_tsn fuel a c).map (fun r => r.1.payload_queue) =
        some a.payload_queue) := by
  unfold handle_forward_tsn
  constructor
  · intro h
    simp [h]
  · intro h hlte
    simp [h, hlte, awake_write_loop]

/-- C9 witness: the theorem applied at a concrete association with
Forward-TSN negotiated and a stale FORWARD-TSN chunk. -/
theorem c9_handle_forward_tsn_reject_and_duplicate_witness :
    handle_forward_tsn 4 { use_forward_tsn := true, peer_last_tsn := 9 }
        { new_cumulative_tsn := 5 } =
      some (awake_write_loop
        { ({ use_forward_tsn := true, peer_last_tsn := 9 } : Association) with
            ack_state := AckState.Immediate
            ack_timer_running := false }, none) :=
  ((c9_handle_forward_tsn_reject_and_duplicate 4
      { use_forward_tsn := true, peer_last_tsn := 9 }
      { new_cumulative_tsn := 5 }).2 rfl (by decide)).1

/-- C10: a SACK received in any state other than Established,
ShutdownPending or ShutdownReceived is ignored: handle_sack returns
success and the association is returned unchanged. -/
theorem c10_handle_sack_ignored_outside_processing_states (fuel : Nat)
    (a : Association) (d : ChunkSelectiveAck)
    (h1 : a.state ≠ AssociationState.Established)
    (h2 : a.state ≠ AssociationState.ShutdownPending)
    (h3 : a.state ≠ AssociationState.ShutdownReceived) :
    handle_sack fuel a d = some (a, none) := by
  unfold handle_sack
  simp [h1, h2, h3]

/-- C10 witness: a SACK arriving in ShutdownSent leaves the
association unchanged. -/
theorem c10_handle_sack_ignored_outside_processing_states_witness :
    handle_sack 4 { state := AssociationState.ShutdownSent } { cumulative_tsn_ack := 3 } =
      some ({ state := AssociationState.ShutdownSent }, none) :=
  c10_handle_sack_ignored_outside_processing_states 4
    { state := AssociationState.ShutdownSent } { cumulative_tsn_ack := 3 }
    (by decide) (by decide) (by decide)

/-- update_first never changes the number of entries. -/
theorem update_first_length (tsn : Nat) (f : ChunkPayloadData → ChunkPayloadData) :
    ∀ l : List ChunkPayloadData, (update_first tsn f l).length = l.length
  | [] => rfl
  | c :: rest => by
      unfold update_first
      split
      · simp
      · simp [update_first_length tsn f rest]

/-- update_first keeps the byte total when the replacement keeps the
byte length of the entry it touches. -/
theorem update_first_map_sum (tsn : Nat) (f : ChunkPayloadData → ChunkPayloadData) :
    ∀ l : List ChunkPayloadData,
      (∀ c, l.find? (fun x => x.tsn == tsn) = some c → (f c).userDataLen = c.userDataLen) →
      ((update_first tsn f l).map (fun c => c.userDataLen)).sum =
        (l.map (fun c => c.userDataLen)).sum
  | [], _ => rfl
  | c :: rest, h => by
      unfold update_first
      by_cases hc : (c.tsn == tsn) = true
      · have hfind : (c :: rest).find? (fun x => x.tsn == tsn) = some c :=
          List.find?_cons_of_pos _ hc
        rw [if_pos hc]
        simp only [List.map_cons, List.sum_cons, h c hfind]
      · have hfind : (c :: rest).find? (fun x => x.tsn == tsn) =
            rest.find? (fun x => x.tsn == tsn) :=
          List.find?_cons_of_neg _ (by simpa using hc)
        rw [if_neg hc]
        simp only [List.map_cons, List.sum_cons]
        rw [update_first_map_sum tsn f rest (fun c hc' => h c (hfind.trans hc'))]

/-- PayloadQueue.update keeps the byte total when the replacement
keeps the byte length of the entry it touches. -/
theorem PayloadQueue.get_num_bytes_update (q : PayloadQueue) (tsn : Nat)
    (f : ChunkPayloadData → ChunkPayloadData)
    (h : ∀ c, q.get tsn = some c → (f c).userDataLen = c.userDataLen) :
    (q.update tsn f).get_num_bytes = q.get_num_bytes :=
  update_first_map_sum tsn f q.chunks h

/-- PayloadQueue.update keeps the entry count. -/
theorem PayloadQueue.len_update (q : PayloadQueue) (tsn : Nat)
    (f : ChunkPayloadData → ChunkPayloadData) :
    (q.update tsn f).len = q.len :=
  update_first_length tsn f q.chunks

/-- A left fold whose step keeps an observation of the association
fixed keeps it fixed overall. -/
theorem foldl_field_eq {β γ : Type} (f : Association → β → Association)
    (g : Association → γ) (h : ∀ a b, g (f a b) = g a) :
    ∀ (l : List β) (a : Association), g (List.foldl f a l) = g a
  | [], _ => rfl
  | b :: l, a => by rw [List.foldl_cons, foldl_field_eq f g h l, h]

/-- The cumulative-ack loop never moves cumulative_tsn_ack_point. -/
theorem cum_ack_loop_preserves :
    ∀ (fuel : Nat) (a : Association) (d : ChunkSelectiveAck) (i : Nat)
      (acc : List (Nat × Nat)) (r : Association × Except SctpError (List (Nat × Nat))),
      cum_ack_loop fuel a d i acc = some r →
      r.1.cumulative_tsn_ack_point = a.cumulative_tsn_ack_point ∧
      r.1.rwnd = a.rwnd
  | 0, _, _, _, _, _, h => by simp [cum_ack_loop] at h
  | fuel + 1, a, d, i, acc, r, h => by
      rw [cum_ack_loop] at h
      split at h
      · rcases hp : a.inflight_queue.pop i with ⟨popped, q⟩
        rw [hp] at h
        match popped, h with
        | none, h =>
            simp only [Option.some.injEq] at h
            simp [← h]
        | some c, h =>
            simp only at h
            repeat' split at h
            all_goals {
              have ih := cum_ack_loop_preserves fuel _ d (w32 (i + 1)) _ r h
              simpa [measure_rtt] using ih }
      · simp only [Option.some.injEq] at h
        simp [← h]

/-- The gap-ack loop never moves cumulative_tsn_ack_point. -/
theorem gap_ack_loop_preserves (d : ChunkSelectiveAck) (l : List Nat) :
    ∀ (a : Association) (acc : List (Nat × Nat)) (htna : Nat),
      (gap_ack_loop a d l acc htna).1.cumulative_tsn_ack_point =
        a.cumulative_tsn_ack_point ∧
      (gap_ack_loop a d l acc htna).1.rwnd = a.rwnd := by
  induction l with
  | nil => intro a acc htna; exact ⟨rfl, rfl⟩
  | cons i rest ih =>
      intro a acc htna
      rw [gap_ack_loop]
      rcases hg : a.inflight_queue.get (w32 (d.cumulative_tsn_ack + i)) with _ | c
      · simp [hg]
      · by_cases hack : c.acked = true
        · simp only [hack]
          simp [hg]
          exact ih _ _ _
        · have hackf : c.acked = false := eq_false_of_ne_true hack
          generalize hm : a.inflight_queue.mark_as_acked (w32 (d.cumulative_tsn_ack + i)) = nq
          obtain ⟨n, q⟩ := nq
          simp only [hackf]
          simp only [and_true, if_pos trivial]
          rcases hg2 : q.get (w32 (d.cumulative_tsn_ack + i)) with _ | c2
          · simp [hg2]
          · simp only [hg2]
            split
            · refine ⟨((ih _ _ _).1).trans ?_, ((ih _ _ _).2).trans ?_⟩ <;>
                simp [measure_rtt]
            · refine ⟨((ih _ _ _).1).trans ?_, ((ih _ _ _).2).trans ?_⟩ <;> simp

/-- on_cumulative_tsn_ack_point_advanced never moves
cumulative_tsn_ack_point. -/
theorem on_cum_advanced_preserves (a : Association) (t : Nat) :
    (on_cumulative_tsn_ack_point_advanced a t).cumulative_tsn_ack_point =
      a.cumulative_tsn_ack_point := by
  simp only [on_cumulative_tsn_ack_point_advanced]
  repeat' split
  all_goals simp

/-- The miss-indicator loop touches neither cumulative_tsn_ack_point,
rwnd, nor the inflight queue's byte total and entry count. -/
theorem pfr_loop_preserves :
    ∀ (fuel : Nat) (a : Association) (tsn max_tsn htna : Nat)
      (r : Association × Option SctpError),
      pfr_loop fuel a tsn max_tsn htna = some r →
      r.1.cumulative_tsn_ack_point = a.cumulative_tsn_ack_point ∧
      r.1.rwnd = a.rwnd ∧
      r.1.inflight_queue.get_num_bytes = a.inflight_queue.get_num_bytes ∧
      r.1.inflight_queue.len = a.inflight_queue.len
  | 0, _, _, _, _, _, h => by simp [pfr_loop] at h
  | fuel + 1, a, tsn, max_tsn, htna, r, h => by
      rw [pfr_loop] at h
      split at h
      · rcases hg : a.inflight_queue.get tsn with _ | c
        · rw [hg] at h
          simp only [Option.some.injEq] at h
          simp [← h]
        · rw [hg] at h
          simp only at h
          have hbytes := a.inflight_queue.get_num_bytes_update tsn
              (fun _ => { c with miss_indicator := c.miss_indicator + 1 })
              (fun c' hc' => by
                have hcc : c' = c := (Option.some.inj (hg.symm.trans hc')).symm
                simp [hcc])
          have hlen := a.inflight_queue.len_update tsn
            (fun _ => { c with miss_indicator := c.miss_indicator + 1 })
          repeat' split at h
          all_goals {
            have ih := pfr_loop_preserves fuel _ (w32 (tsn + 1)) max_tsn htna r h
            simpa [hbytes, hlen] using ih }
      · simp only [Option.some.injEq] at h
        simp [← h]

/-- process_fast_retransmission touches neither
cumulative_tsn_ack_point, rwnd, nor the inflight queue's byte total
and entry count. -/
theorem pfr_preserves (fuel : Nat) (a : Association) (cum htna : Nat)
    (adv : Bool) (r : Association × Option SctpError)
    (h : process_fast_retransmission fuel a cum htna adv = some r) :
    r.1.cumulative_tsn_ack_point = a.cumulative_tsn_ack_point ∧
    r.1.rwnd = a.rwnd ∧
    r.1.inflight_queue.get_num_bytes = a.inflight_queue.get_num_bytes ∧
    r.1.inflight_queue.len = a.inflight_queue.len := by
  unfold process_fast_retransmission at h
  split at h
  · rcases hl : pfr_loop fuel a (w32 (cum + 1)) (pfr_max_tsn a cum htna) htna with
      _ | ⟨a', e⟩
    · rw [hl] at h; simp at h
    · rw [hl] at h
      have hp := pfr_loop_preserves fuel a (w32 (cum + 1)) (pfr_max_tsn a cum htna)
        htna (a', e) hl
      match e, h with
      | some e, h =>
          simp only [Option.some.injEq] at h
          simp only [← h]
          exact hp
      | none, h =>
          simp only [Option.some.injEq] at h
          split at h <;> simp only [← h] <;> simpa using hp
  · simp only [Option.some.injEq] at h
    simp [← h]

/-- The Forward-TSN block of handle_sack touches neither
cumulative_tsn_ack_point, rwnd, nor the inflight queue. -/
theorem sack_forward_tsn_block_preserves (a : Association) :
    (sack_forward_tsn_block a).cumulative_tsn_ack_point =
      a.cumulative_tsn_ack_point ∧
    (sack_forward_tsn_block a).rwnd = a.rwnd ∧
    (sack_forward_tsn_block a).inflight_queue = a.inflight_queue := by
  simp only [sack_forward_tsn_block, awake_write_loop]
  repeat' split
  all_goals simp

/-- postprocess_sack touches neither cumulative_tsn_ack_point, rwnd,
nor the inflight queue. -/
theorem postprocess_sack_preserves (a : Association) (st : AssociationState)
    (adv : Bool) :
    (postprocess_sack a st adv).cumulative_tsn_ack_point =
      a.cumulative_tsn_ack_point ∧
    (postprocess_sack a st adv).rwnd = a.rwnd ∧
    (postprocess_sack a st adv).inflight_queue = a.inflight_queue := by
  simp only [postprocess_sack, awake_write_loop, set_state]
  repeat' split
  all_goals simp

/-- release_streams only touches the streams map. -/
theorem release_streams_preserves (a : Association) (m : List (Nat × Nat)) :
    (release_streams a m).rwnd = a.rwnd ∧
    (release_streams a m).inflight_queue = a.inflight_queue ∧
    (release_streams a m).cumulative_tsn_ack_point = a.cumulative_tsn_ack_point := by
  have h := foldl_field_eq
    (fun (a : Association) q =>
      { a with streams := a.streams.map (fun p =>
          if p.1 == q.1 then (p.1, p.2.on_buffer_released q.2) else p) })
    (fun a => (a.rwnd, a.inflight_queue, a.cumulative_tsn_ack_point))
    (fun a b => rfl) m a
  exact ⟨congrArg Prod.fst h,
    congrArg (fun p => p.2.1) h, congrArg (fun p => p.2.2) h⟩

/-- update_rwnd sets rwnd to a_rwnd minus the outstanding bytes
(floored at zero) and touches nothing else. -/
theorem update_rwnd_spec (a : Association) (a_rwnd : Nat) :
    (update_rwnd a a_rwnd).rwnd = a_rwnd - a.inflight_queue.get_num_bytes ∧
    (update_rwnd a a_rwnd).inflight_queue = a.inflight_queue ∧
    (update_rwnd a a_rwnd).cumulative_tsn_ack_point = a.cumulative_tsn_ack_point := by
  unfold update_rwnd
  split
  · refine ⟨?_, by simp, by simp⟩
    simp only []
    omega
  · exact ⟨by simp, by simp, by simp⟩

/-- The cumulative-ack advance step either leaves the ack point alone
or moves it forward (in serial order) to the SACK's cumulative ack. -/
theorem sack_cum_advance_cum (a : Association) (d : ChunkSelectiveAck) (t : Nat) :
    (sack_cum_advance a d t).1.cumulative_tsn_ack_point = a.cumulative_tsn_ack_point ∨
    (sna32lt a.cumulative_tsn_ack_point d.cumulative_tsn_ack = true ∧
      (sack_cum_advance a d t).1.cumulative_tsn_ack_point = d.cumulative_tsn_ack) := by
  unfold sack_cum_advance
  split
  · right
    refine ⟨by assumption, ?_⟩
    simp only [on_cum_advanced_preserves]
  · left; rfl

/-- C3: the gap-ack region of process_selective_ack measures RTT for
any chunk with nsent = 1, without checking tsn ≥ min-TSN-to-measure-RTT
as the cumulative-ack region does: handling c3_sack takes an RTT sample
for TSN 3 even though sna32gte 3 min_tsn2measure_rtt is false. -/
theorem c3_gap_ack_measures_rtt_below_min :
    sna32gte 3 c3_assoc.min_tsn2measure_rtt = false ∧
    (handle_sack 8 c3_assoc c3_sack).map
      (fun r => (r.1.rtt_measured_tsns, r.2.isSome)) = some ([3], false) := by
  decide

/-- C4 counterexample: after accepting and processing c4_sack the
association has rwnd + bytes-outstanding = 0 + 10 = 10, but the SACK's
a_rwnd is 5, so the claimed equation rwnd + bytes-outstanding =
last-advertised-a_rwnd fails (rwnd is floored at zero). -/
theorem c4_rwnd_equation_fails :
    c4_assoc.state = AssociationState.Established ∧
    sna32gt c4_assoc.cumulative_tsn_ack_point c4_sack.cumulative_tsn_ack = false ∧
    (handle_sack 8 c4_assoc c4_sack).map
      (fun r => (r.1.rwnd + r.1.inflight_queue.get_num_bytes, r.2.isSome)) =
      some (10, false) ∧
    c4_sack.advertised_receiver_window_credit = 5 := by
  decide

/-- C4 (amended): for every SACK accepted and processed to completion
by handle_sack, the resulting rwnd equals the SACK's a_rwnd minus the
bytes still outstanding, floored at zero; in particular the claimed
equation rwnd + bytes-outstanding = last-advertised-a_rwnd holds
whenever the outstanding bytes do not exceed the advertised window. -/
theorem c4_rwnd_after_sack (fuel : Nat) (a : Association) (d : ChunkSelectiveAck)
    (a' : Association)
    (hstate : a.state = AssociationState.Established ∨
      a.state = AssociationState.ShutdownPending ∨
      a.state = AssociationState.ShutdownReceived)
    (hfresh : sna32gt a.cumulative_tsn_ack_point d.cumulative_tsn_ack = false)
    (h : handle_sack fuel a d = some (a', none)) :
    a'.rwnd = d.advertised_receiver_window_credit - a'.inflight_queue.get_num_bytes ∧
    (a'.inflight_queue.get_num_bytes ≤ d.advertised_receiver_window_credit →
      a'.rwnd + a'.inflight_queue.get_num_bytes =
        d.advertised_receiver_window_credit) := by
  unfold handle_sack at h
  have hcond : ¬(a.state ≠ AssociationState.Established ∧
      a.state ≠ AssociationState.ShutdownPending ∧
      a.state ≠ AssociationState.ShutdownReceived) := by
    rcases hstate with h1 | h1 | h1 <;> simp [h1]
  rw [if_neg hcond] at h
  rw [if_neg (by simp [hfresh] : ¬(sna32gt ({ a with num_sacks := a.num_sacks + 1 } :
      Association).cumulative_tsn_ack_point d.cumulative_tsn_ack = true))] at h
  generalize hpsa : process_selective_ack fuel { a with num_sacks := a.num_sacks + 1 } d = psa at h
  obtain _ | ⟨a2, exc⟩ := psa
  · simp at h
  · obtain e | ⟨acked_map, htna⟩ := exc
    · simp at h
    · simp only [] at h
      rcases hca : sack_cum_advance a2 d (total_bytes acked_map) with ⟨a3, adv⟩
      rw [hca] at h
      simp only [] at h
      rcases hpfr : process_fast_retransmission fuel
          (update_rwnd (release_streams a3 acked_map) d.advertised_receiver_window_credit)
          d.cumulative_tsn_ack htna adv with _ | ⟨a6, e6⟩
      · rw [hpfr] at h; simp at h
      · rw [hpfr] at h
        match e6, h with
        | some e6, h => simp at h
        | none, h =>
          simp only [Option.some.injEq, Prod.mk.injEq] at h
          have hup := update_rwnd_spec (release_streams a3 acked_map)
            d.advertised_receiver_window_credit
          have hrel := release_streams_preserves a3 acked_map
          have hpp := pfr_preserves fuel _ _ _ _ _ hpfr
          have hfin : a' = postprocess_sack
              (if a6.use_forward_tsn = true then sack_forward_tsn_block a6 else a6)
              a.state adv := h.1.symm
          have hpost := postprocess_sack_preserves
            (if a6.use_forward_tsn = true then sack_forward_tsn_block a6 else a6) a.state adv
          have hfwd : (if a6.use_forward_tsn = true then sack_forward_tsn_block a6
              else a6).rwnd = a6.rwnd ∧
              (if a6.use_forward_tsn = true then sack_forward_tsn_block a6
              else a6).inflight_queue = a6.inflight_queue := by
            split
            · exact ⟨(sack_forward_tsn_block_preserves a6).2.1,
                (sack_forward_tsn_block_preserves a6).2.2⟩
            · exact ⟨rfl, rfl⟩
          have hmain : a'.rwnd =
              d.advertised_receiver_window_credit - a'.inflight_queue.get_num_bytes := by
            rw [hfin]
            rw [hpost.2.1, hfwd.1, hpp.2.1, hup.1]
            rw [show (postprocess_sack (if a6.use_forward_tsn = true then
                sack_forward_tsn_block a6 else a6) a.state adv).inflight_queue.get_num_bytes
                = a6.inflight_queue.get_num_bytes from by rw [hpost.2.2, hfwd.2]]
            rw [hpp.2.2.1, hup.2.1, hrel.2.1]
          exact ⟨hmain, fun hle => by omega⟩

/-- C4 witness: the amended theorem applied to a concrete accepted
SACK (rwnd becomes 100 - 10 = 90). -/
theorem c4_rwnd_after_sack_witness :
    handle_sack 8 c4w_assoc c4w_sack = some (c4w_result, none) ∧
    c4w_result.rwnd = c4w_sack.advertised_receiver_window_credit -
      c4w_result.inflight_queue.get_num_bytes := by
  have hx : handle_sack 8 c4w_assoc c4w_sack = some (c4w_result, none) := by decide
  exact ⟨hx, (c4_rwnd_after_sack 8 c4w_assoc c4w_sack c4w_result
    (Or.inl rfl) (by decide) hx).1⟩

/-- process_selective_ack never moves cumulative_tsn_ack_point. -/
theorem process_selective_ack_preserves (fuel : Nat) (a : Association)
    (d : ChunkSelectiveAck) (r : Association × Except SctpError (List (Nat × Nat) × Nat))
    (h : process_selective_ack fuel a d = some r) :
    r.1.cumulative_tsn_ack_point = a.cumulative_tsn_ack_point := by
  unfold process_selective_ack at h
  rcases hcl : cum_ack_loop fuel a d (w32 (a.cumulative_tsn_ack_point + 1)) []
    with _ | ⟨a1, exc⟩
  · rw [hcl] at h; simp at h
  · rw [hcl] at h
    have h1 := cum_ack_loop_preserves fuel a d _ _ _ hcl
    match exc, h with
    | Except.error e, h =>
        simp only [Option.some.injEq] at h
        rw [← h]
        exact h1.1
    | Except.ok acc, h =>
        simp only [Option.some.injEq] at h
        have h2 := gap_ack_loop_preserves d (gap_ack_offsets d) a1 acc d.cumulative_tsn_ack
        rw [← h]
        exact h2.1.trans h1.1

/-- A single handle_sack call never moves cumulative_tsn_ack_point
backwards: it is either unchanged or serially advanced. -/
theorem handle_sack_cum_mono (fuel : Nat) (a : Association) (d : ChunkSelectiveAck)
    (r : Association × Option SctpError) (h : handle_sack fuel a d = some r) :
    r.1.cumulative_tsn_ack_point = a.cumulative_tsn_ack_point ∨
    sna32lt a.cumulative_tsn_ack_point r.1.cumulative_tsn_ack_point = true := by
  unfold handle_sack at h
  by_cases hst : a.state ≠ AssociationState.Established ∧
      a.state ≠ AssociationState.ShutdownPending ∧
      a.state ≠ AssociationState.ShutdownReceived
  · rw [if_pos hst] at h
    simp only [Option.some.injEq] at h
    rw [← h]
    exact Or.inl rfl
  · rw [if_neg hst] at h
    by_cases hstale : sna32gt ({ a with num_sacks := a.num_sacks + 1 } :
        Association).cumulative_tsn_ack_point d.cumulative_tsn_ack = true
    · rw [if_pos hstale] at h
      simp only [Option.some.injEq] at h
      rw [← h]
      exact Or.inl rfl
    · rw [if_neg hstale] at h
      generalize hpsa : process_selective_ack fuel { a with num_sacks := a.num_sacks + 1 } d = psa at h
      obtain _ | ⟨a2, exc⟩ := psa
      · simp at h
      · have ha2 : a2.cumulative_tsn_ack_point = a.cumulative_tsn_ack_point :=
          process_selective_ack_preserves fuel _ d _ hpsa
        obtain e | ⟨acked_map, htna⟩ := exc
        · simp only [Option.some.injEq] at h
          rw [← h]
          exact Or.inl ha2
        · simp only [] at h
          rcases hca : sack_cum_advance a2 d (total_bytes acked_map) with ⟨a3, adv⟩
          rw [hca] at h
          simp only [] at h
          have ha3 := sack_cum_advance_cum a2 d (total_bytes acked_map)
          rw [hca] at ha3
          simp only [] at ha3
          have hrel := release_streams_preserves a3 acked_map
          have hup := update_rwnd_spec (release_streams a3 acked_map)
            d.advertised_receiver_window_credit
          rcases hpfr : process_fast_retransmission fuel
              (update_rwnd (release_streams a3 acked_map) d.advertised_receiver_window_credit)
              d.cumulative_tsn_ack htna adv with _ | ⟨a6, e6⟩
          · rw [hpfr] at h; simp at h
          · rw [hpfr] at h
            have hpp := pfr_preserves fuel _ _ _ _ _ hpfr
            have ha6 : a6.cumulative_tsn_ack_point = a3.cumulative_tsn_ack_point := by
              rw [hpp.1, hup.2.2, hrel.2.2]
            match e6, h with
            | some e6, h =>
                simp only [Option.some.injEq] at h
                rw [← h]
                simp only []
                rw [ha6]
                rcases ha3 with h3 | ⟨hlt, h3⟩
                · exact Or.inl (h3.trans ha2)
                · rw [h3]
                  rw [ha2] at hlt
                  exact Or.inr hlt
            | none, h =>
                simp only [Option.some.injEq] at h
                have hfin : r.1 = postprocess_sack
                    (if a6.use_forward_tsn = true then sack_forward_tsn_block a6 else a6)
                    a.state adv := by rw [← h]
                have hpost := postprocess_sack_preserves
                  (if a6.use_forward_tsn = true then sack_forward_tsn_block a6 else a6)
                  a.state adv
                have hfwd : (if a6.use_forward_tsn = true then sack_forward_tsn_block a6
                    else a6).cumulative_tsn_ack_point = a6.cumulative_tsn_ack_point := by
                  split
                  · exact (sack_forward_tsn_block_preserves a6).1
                  · rfl
                have hr : r.1.cumulative_tsn_ack_point = a3.cumulative_tsn_ack_point := by
                  rw [hfin, hpost.1, hfwd, ha6]
                rcases ha3 with h3 | ⟨hlt, h3⟩
                · exact Or.inl ((hr.trans h3).trans ha2)
                · rw [hr, h3]
                  rw [ha2] at hlt
                  exact Or.inr hlt

/-- A SACK trajectory starts at its initial state. -/
theorem sack_trace_head (fuel : Nat) (a : Association) (ds : List ChunkSelectiveAck) :
    (sack_trace fuel a ds).head? = some a := by
  cases ds <;> rfl

/-- Along any sequence of received SACKs, consecutive states have
non-decreasing cumulative_tsn_ack_point (serial order). -/
theorem sack_trace_chain (fuel : Nat) (ds : List ChunkSelectiveAck) :
    ∀ a : Association,
      List.Chain'
        (fun x y => x.cumulative_tsn_ack_point = y.cumulative_tsn_ack_point ∨
          sna32lt x.cumulative_tsn_ack_point y.cumulative_tsn_ack_point = true)
        (sack_trace fuel a ds) := by
  induction ds with
  | nil => intro a; simp [sack_trace]
  | cons d rest ih =>
      intro a
      rw [sack_trace]
      refine List.chain'_cons'.2 ⟨?_, ih _⟩
      intro b hb
      rw [sack_trace_head] at hb
      have hb' : b = handle_sack_step fuel a d := (Option.some.inj hb).symm
      rw [hb']
      unfold handle_sack_step
      rcases hx : handle_sack fuel a d with _ | r
      · exact Or.inl rfl
      · rcases handle_sack_cum_mono fuel a d r hx with he | hlt
        · exact Or.inl he.symm
        · exact Or.inr hlt

/-- C8: a SACK whose cumulative ack is serially behind the current
cumulative_tsn_ack_point is discarded: handle_sack returns success and
only the SACK counter changes (in particular cumulative_tsn_ack_point,
the inflight queue, cwnd, ssthresh and rwnd are untouched); a
processed SACK never moves cumulative_tsn_ack_point backwards; and
along any sequence of received SACKs the ack point is non-decreasing
in serial order. -/
theorem c8_stale_sack_discarded_and_ack_point_monotone :
    (∀ (fuel : Nat) (a : Association) (d : ChunkSelectiveAck),
      (a.state = AssociationState.Established ∨
       a.state = AssociationState.ShutdownPending ∨
       a.state = AssociationState.ShutdownReceived) →
      sna32gt a.cumulative_tsn_ack_point d.cumulative_tsn_ack = true →
      handle_sack fuel a d = some ({ a with num_sacks := a.num_sacks + 1 }, none)) ∧
    (∀ (fuel : Nat) (a : Association) (d : ChunkSelectiveAck)
        (r : Association × Option SctpError), handle_sack fuel a d = some r →
      r.1.cumulative_tsn_ack_point = a.cumulative_tsn_ack_point ∨
      sna32lt a.cumulative_tsn_ack_point r.1.cumulative_tsn_ack_point = true) ∧
    (∀ (fuel : Nat) (a : Association) (ds : List ChunkSelectiveAck),
      List.Chain'
        (fun x y => x.cumulative_tsn_ack_point = y.cumulative_tsn_ack_point ∨
          sna32lt x.cumulative_tsn_ack_point y.cumulative_tsn_ack_point = true)
        (sack_trace fuel a ds)) := by
  refine ⟨?_, handle_sack_cum_mono, fun fuel a ds => sack_trace_chain fuel ds a⟩
  intro fuel a d hstate hstale
  unfold handle_sack
  have hcond : ¬(a.state ≠ AssociationState.Established ∧
      a.state ≠ AssociationState.ShutdownPending ∧
      a.state ≠ AssociationState.ShutdownReceived) := by
    rcases hstate with h1 | h1 | h1 <;> simp [h1]
  rw [if_neg hcond]
  rw [if_pos (show sna32gt ({ a with num_sacks := a.num_sacks + 1 } :
      Association).cumulative_tsn_ack_point d.cumulative_tsn_ack = true from by
    simpa using hstale)]

/-- C8 witness: the discard clause applied at a concrete stale SACK. -/
theorem c8_stale_sack_discarded_witness :
    handle_sack 4 c8w_assoc c8w_sack =
      some ({ c8w_assoc with num_sacks := c8w_assoc.num_sacks + 1 }, none) :=
  c8_stale_sack_discarded_and_ack_point_monotone.1 4 c8w_assoc c8w_sack
    (Or.inl rfl) (by decide)

/-- While in fast recovery, the miss-indicator loop leaves the
congestion variables untouched (the entry adjustment is guarded by
not-in-fast-recovery). -/
theorem pfr_loop_in_fr_preserves :
    ∀ (fuel : Nat) (a : Association) (tsn max_tsn htna : Nat)
      (a' : Association) (e : Option SctpError),
      pfr_loop fuel a tsn max_tsn htna = some (a', e) →
      a.in_fast_recovery = true →
      a'.cwnd = a.cwnd ∧ a'.ssthresh = a.ssthresh ∧
      a'.partial_bytes_acked = a.partial_bytes_acked ∧
      a'.fast_recover_exit_point = a.fast_recover_exit_point ∧
      a'.will_retransmit_fast = a.will_retransmit_fast ∧
      a'.in_fast_recovery = true
  | 0, _, _, _, _, _, _, h, _ => by simp [pfr_loop] at h
  | fuel + 1, a, tsn, max_tsn, htna, a', e, h, hfr => by
      rw [pfr_loop] at h
      split at h
      · rcases hg : a.inflight_queue.get tsn with _ | c
        · rw [hg] at h
          simp only [Option.some.injEq, Prod.mk.injEq] at h
          simp [← h.1, hfr]
        · rw [hg] at h
          simp only [hfr] at h
          repeat' split at h
          all_goals try simp_all
          all_goals {
            have ih := pfr_loop_in_fr_preserves fuel _ (w32 (tsn + 1)) max_tsn htna a' e h
              (by simp [hfr])
            simpa using ih }
      · simp only [Option.some.injEq, Prod.mk.injEq] at h
        simp [← h.1, hfr]

/-- From outside fast recovery, the miss-indicator loop either leaves
the fast-recovery state untouched or enters fast recovery exactly
once, setting ssthresh = max(cwnd/2, 4*mtu), cwnd = ssthresh,
partial_bytes_acked = 0, the exit point to the htna, and scheduling a
fast retransmission. -/
theorem pfr_loop_entry :
    ∀ (fuel : Nat) (a : Association) (tsn max_tsn htna : Nat)
      (a' : Association) (e : Option SctpError),
      pfr_loop fuel a tsn max_tsn htna = some (a', e) →
      a.in_fast_recovery = false →
      (a'.in_fast_recovery = false ∧ a'.cwnd = a.cwnd ∧ a'.ssthresh = a.ssthresh ∧
        a'.partial_bytes_acked = a.partial_bytes_acked ∧
        a'.fast_recover_exit_point = a.fast_recover_exit_point ∧
        a'.will_retransmit_fast = a.will_retransmit_fast) ∨
      (a'.in_fast_recovery = true ∧ a'.ssthresh = max (a.cwnd / 2) (4 * a.mtu) ∧
        a'.cwnd = a'.ssthresh ∧ a'.partial_bytes_acked = 0 ∧
        a'.fast_recover_exit_point = htna ∧ a'.will_retransmit_fast = true)
  | 0, _, _, _, _, _, _, h, _ => by simp [pfr_loop] at h
  | fuel + 1, a, tsn, max_tsn, htna, a', e, h, hfr => by
      rw [pfr_loop] at h
      split at h
      · rcases hg : a.inflight_queue.get tsn with _ | c
        · rw [hg] at h
          simp only [Option.some.injEq, Prod.mk.injEq] at h
          exact Or.inl (by simp [← h.1, hfr])
        · rw [hg] at h
          simp only [hfr] at h
          by_cases hc1 : c.acked = false ∧ c.abandoned = false ∧ c.miss_indicator < 3
          · rw [if_pos hc1] at h
            by_cases hc2 : c.miss_indicator + 1 = 3
            · rw [if_pos ⟨hc2, trivial⟩] at h
              have ih := pfr_loop_in_fr_preserves fuel _ (w32 (tsn + 1)) max_tsn htna a' e h
                (by simp)
              right
              refine ⟨ih.2.2.2.2.2, ?_, ?_, ?_, ?_, ?_⟩
              · simpa using ih.2.1
              · simp [ih.1, ih.2.1]
              · simpa using ih.2.2.1
              · simpa using ih.2.2.2.1
              · simpa using ih.2.2.2.2.1
            · rw [if_neg (by simp [hc2])] at h
              have ih := pfr_loop_entry fuel _ (w32 (tsn + 1)) max_tsn htna a' e h
                (by simp [hfr])
              simpa using ih
          · rw [if_neg hc1] at h
            have ih := pfr_loop_entry fuel _ (w32 (tsn + 1)) max_tsn htna a' e h
              (by simpa using hfr)
            simpa using ih
      · simp only [Option.some.injEq, Prod.mk.injEq] at h
        exact Or.inl (by simp [← h.1, hfr])

/-- C5: whenever a SACK causes a chunk's miss indicator to reach 3
while the association is not in fast recovery,
process_fast_retransmission sets ssthresh = max(cwnd/2, 4*mtu), cwnd =
ssthresh, partial_bytes_acked = 0, fast_recover_exit_point = htna and
will_retransmit_fast = true (first conjunct, with fast-recovery entry
observed as in_fast_recovery flipping to true); and the adjustment is
one-shot: while in_fast_recovery is already true, cwnd, ssthresh and
partial_bytes_acked are never touched again (second conjunct). -/
theorem c5_fast_recovery_entry_once (fuel : Nat) (a : Association) (cum htna : Nat) (adv : Bool)
    (a' : Association) (e : Option SctpError)
    (h : process_fast_retransmission fuel a cum htna adv = some (a', e)) :
    (a.in_fast_recovery = false → a'.in_fast_recovery = true →
      a'.ssthresh = max (a.cwnd / 2) (4 * a.mtu) ∧ a'.cwnd = a'.ssthresh ∧
      a'.partial_bytes_acked = 0 ∧ a'.fast_recover_exit_point = htna ∧
      a'.will_retransmit_fast = true) ∧
    (a.in_fast_recovery = true → a'.cwnd = a.cwnd ∧ a'.ssthresh = a.ssthresh ∧
      a'.partial_bytes_acked = a.partial_bytes_acked) := by
  unfold process_fast_retransmission at h
  split at h
  · rcases hl : pfr_loop fuel a (w32 (cum + 1)) (pfr_max_tsn a cum htna) htna
      with _ | ⟨a6, e6⟩
    · rw [hl] at h; simp at h
    · rw [hl] at h
      rcases e6 with _ | e0
      · simp only [Option.some.injEq, Prod.mk.injEq] at h
        obtain ⟨ha', _⟩ := h
        constructor
        · intro hfr hrf
          rcases pfr_loop_entry fuel a _ _ htna a6 none hl hfr with ⟨h0, _⟩ | hent
          · exfalso
            rw [← ha'] at hrf
            revert hrf
            split <;> simp [h0]
          · rw [← ha']
            refine ⟨?_, ?_, ?_, ?_, ?_⟩ <;> split <;>
              simp [hent.2.1, hent.2.2.1, hent.2.2.2.1, hent.2.2.2.2.1,
                hent.2.2.2.2.2]
        · intro hfr
          have ih := pfr_loop_in_fr_preserves fuel a _ _ htna a6 none hl hfr
          rw [← ha']
          refine ⟨?_, ?_, ?_⟩ <;> split <;>
            simp [ih.1, ih.2.1, ih.2.2.1]
      · simp only [Option.some.injEq, Prod.mk.injEq] at h
        obtain ⟨ha', _⟩ := h
        rw [← ha']
        constructor
        · intro hfr hrf
          rcases pfr_loop_entry fuel a _ _ htna a6 (some e0) hl hfr with ⟨h0, _⟩ | hent
          · exact absurd hrf (by simp [h0])
          · exact ⟨hent.2.1, hent.2.2.1, hent.2.2.2.1, hent.2.2.2.2.1,
              hent.2.2.2.2.2⟩
        · intro hfr
          have ih := pfr_loop_in_fr_preserves fuel a _ _ htna a6 (some e0) hl hfr
          exact ⟨ih.1, ih.2.1, ih.2.2.1⟩
  · simp only [Option.some.injEq, Prod.mk.injEq] at h
    obtain ⟨ha', _⟩ := h
    rw [← ha']
    constructor
    · intro hfr hrf
      exact absurd (Or.inl hfr) (by assumption)
    · intro hfr
      exact ⟨rfl, rfl, rfl⟩

/-- C5 witness: the theorem applied at a concrete fast-recovery entry
(cwnd 10000 halves to ssthresh = cwnd = 5000, exit point 6). -/
theorem c5_fast_recovery_entry_once_witness :
    process_fast_retransmission 8 c5w_assoc 4 6 false = some (c5w_result, none) ∧
    c5w_assoc.in_fast_recovery = false ∧ c5w_result.in_fast_recovery = true ∧
    c5w_result.ssthresh = max (c5w_assoc.cwnd / 2) (4 * c5w_assoc.mtu) ∧
    c5w_result.cwnd = c5w_result.ssthresh ∧
    c5w_result.partial_bytes_acked = 0 ∧
    c5w_result.fast_recover_exit_point = 6 ∧
    c5w_result.will_retransmit_fast = true := by
  have hx : process_fast_retransmission 8 c5w_assoc 4 6 false =
      some (c5w_result, none) := by decide
  have hm := c5_fast_recovery_entry_once 8 c5w_assoc 4 6 false c5w_result none hx
  have hent := hm.1 rfl (by decide)
  exact ⟨hx, rfl, by decide, hent.1, hent.2.1, hent.2.2.1, hent.2.2.2.1,
    hent.2.2.2.2⟩

/-- The advance loop used on T3-rtx expiry (RFC 3758 C2) reaches
exactly the end of the run of consecutive abandoned inflight chunks
after the starting point: every skipped TSN held an abandoned chunk,
and (within fuel) the next TSN is absent or not abandoned. -/
theorem advance_past_abandoned_spec (q : PayloadQueue) :
    ∀ (fuel start : Nat), start < tsnMod →
      ∃ n, n ≤ fuel ∧
        advance_past_abandoned q fuel start = w32 (start + n) ∧
        (∀ m, 1 ≤ m → m ≤ n → ∃ c, q.get (w32 (start + m)) = some c ∧ c.abandoned = true) ∧
        (n < fuel →
          q.get (w32 (start + n + 1)) = none ∨
          ∃ c, q.get (w32 (start + n + 1)) = some c ∧ c.abandoned = false) := by
  intro fuel
  induction fuel with
  | zero =>
      intro start hs
      refine ⟨0, Nat.le_refl 0, ?_, ?_, ?_⟩
      · show start = w32 (start + 0)
        simp only [w32, tsnMod] at *
        omega
      · intro m h1 h2; omega
      · intro h; omega
  | succ fuel ih =>
      intro start hs
      rcases hg : q.get (w32 (start + 1)) with _ | c
      · refine ⟨0, Nat.zero_le _, ?_, ?_, ?_⟩
        · rw [advance_past_abandoned, hg]
          simp only [w32, tsnMod] at *
          omega
        · intro m h1 h2; omega
        · intro _
          exact Or.inl (by simpa using hg)
      · by_cases hab : c.abandoned = true
        · have hs1 : w32 (start + 1) < tsnMod :=
            Nat.mod_lt _ (by norm_num [tsnMod])
          obtain ⟨n', hle, hres, hall, hstop⟩ := ih (w32 (start + 1)) hs1
          have hshift : ∀ j : Nat, w32 (w32 (start + 1) + j) = w32 (start + 1 + j) := by
            intro j
            simp only [w32, tsnMod]
            omega
          refine ⟨n' + 1, by omega, ?_, ?_, ?_⟩
          · rw [advance_past_abandoned, hg]
            simp only []
            rw [if_neg (by simp [hab] : ¬c.abandoned = false), hres, hshift n']
            congr 1
            omega
          · intro m h1 h2
            rcases Nat.eq_or_lt_of_le h1 with h1' | h1'
            · exact ⟨c, by rw [← h1']; exact hg, hab⟩
            · obtain ⟨c', hc', hab'⟩ := hall (m - 1) (by omega) (by omega)
              refine ⟨c', ?_, hab'⟩
              have hidx : w32 (start + 1 + (m - 1)) = w32 (start + m) := by
                congr 1
                omega
              rw [← hidx, ← hshift (m - 1)]
              exact hc'
          · intro hlt
            have hstop' := hstop (by omega)
            have hre : w32 (w32 (start + 1) + n' + 1) = w32 (start + (n' + 1) + 1) := by
              simp only [w32, tsnMod]
              omega
            rw [hre] at hstop'
            exact hstop'
        · refine ⟨0, Nat.zero_le _, ?_, ?_, ?_⟩
          · rw [advance_past_abandoned, hg]
            simp only []
            rw [if_pos (eq_false_of_ne_true hab)]
            simp only [w32, tsnMod] at *
            omega
          · intro m h1 h2; omega
          · intro _
            exact Or.inr ⟨c, by simpa using hg, eq_false_of_ne_true hab⟩

/-- The advance loop can take at most one step per queue entry: the
skipped TSNs are distinct and each one is the TSN of some stored
chunk. -/
theorem advance_steps_le_len (q : PayloadQueue) (start n : Nat) (hn : n ≤ tsnMod)
    (habn : ∀ m, 1 ≤ m → m ≤ n → ∃ c, q.get (w32 (start + m)) = some c ∧ c.abandoned = true) :
    n ≤ q.len := by
  classical
  have hinj : Set.InjOn (fun m => w32 (start + m)) (Finset.Icc 1 n) := by
    intro m1 hm1 m2 hm2 he
    simp only [Finset.coe_Icc, Set.mem_Icc] at hm1 hm2
    simp only [w32, tsnMod] at he
    have hn' : n ≤ 4294967296 := by simpa [tsnMod] using hn
    omega
  have hsub : (Finset.Icc 1 n).image (fun m => w32 (start + m)) ⊆
      (q.chunks.map (fun c => c.tsn)).toFinset := by
    intro v hv
    simp only [Finset.mem_image, Finset.mem_Icc] at hv
    obtain ⟨m, ⟨h1, h2⟩, rfl⟩ := hv
    obtain ⟨c, hc, _⟩ := habn m h1 h2
    have hmem : c ∈ q.chunks := List.mem_of_find?_eq_some hc
    have htsn : c.tsn = w32 (start + m) := by
      have := List.find?_some hc
      simpa using this
    rw [List.mem_toFinset, List.mem_map]
    exact ⟨c, hmem, htsn⟩
  have hcard1 : ((Finset.Icc 1 n).image (fun m => w32 (start + m))).card = n := by
    rw [Finset.card_image_of_injOn hinj, Nat.card_Icc]
    omega
  have hcard2 := Finset.card_le_card hsub
  have hcard3 := (q.chunks.map (fun c => c.tsn)).toFinset_card_le
  simp only [List.length_map] at hcard3
  unfold PayloadQueue.len
  omega

/-- Every chunk that is neither acked nor abandoned is marked for
retransmission by mark_all_to_retrasmit. -/
theorem mark_all_to_retrasmit_spec (q : PayloadQueue) :
    ∀ c ∈ q.mark_all_to_retrasmit.chunks,
      c.acked = false → c.abandoned = false → c.retransmit = true := by
  intro c hc hack hab
  unfold PayloadQueue.mark_all_to_retrasmit at hc
  simp only [List.mem_map] at hc
  obtain ⟨c0, hc0, rfl⟩ := hc
  by_cases hcase : (c0.acked || c0.abandoned) = true
  · rw [if_pos hcase] at hack hab
    cases hA : c0.acked <;> cases hB : c0.abandoned_flag <;>
      simp_all [ChunkPayloadData.abandoned]
  · rw [if_neg hcase]

/-- C6 counterexample: the claim says every chunk in the inflight
queue is marked for retransmit on T3-rtx expiry, but an abandoned
chunk is skipped (spec sec 8: abandoned chunks never retransmit): after
the timeout the abandoned chunk at TSN 1 still has retransmit =
false. -/
theorem c6_abandoned_chunk_not_marked :
    ((c6_assoc.inflight_queue.get 1).map (fun c => c.abandoned)) = some true ∧
    ((on_retransmission_timeout c6_assoc RtxTimerId.T3RTX 0).inflight_queue.get 1).map
      (fun c => c.retransmit) = some false := by
  decide

/-- C6 (amended): on T3-rtx expiry, ssthresh becomes max(cwnd/2,
4*mtu), cwnd becomes mtu, every inflight chunk that is neither acked
nor abandoned is marked for retransmit, the write loop is woken, and
when Forward-TSN is in use the advanced peer TSN ack point is advanced
past exactly the consecutive run of abandoned inflight chunks with a
FORWARD-TSN scheduled iff the point then exceeds the cumulative TSN
ack point (or one was already scheduled); when Forward-TSN is not in
use the ack point and the FORWARD-TSN intent are unchanged. -/
theorem c6_t3rtx_collapse_and_mark (a : Association) (n : Nat)
    (hlen : a.inflight_queue.len < tsnMod)
    (hadv : a.advanced_peer_tsn_ack_point < tsnMod) :
    (on_retransmission_timeout a RtxTimerId.T3RTX n).ssthresh =
      max (a.cwnd / 2) (4 * a.mtu) ∧
    (on_retransmission_timeout a RtxTimerId.T3RTX n).cwnd = a.mtu ∧
    (∀ c ∈ (on_retransmission_timeout a RtxTimerId.T3RTX n).inflight_queue.chunks,
      c.acked = false → c.abandoned = false → c.retransmit = true) ∧
    (on_retransmission_timeout a RtxTimerId.T3RTX n).awoken = true ∧
    (a.use_forward_tsn = false →
      (on_retransmission_timeout a RtxTimerId.T3RTX n).advanced_peer_tsn_ack_point =
        a.advanced_peer_tsn_ack_point ∧
      (on_retransmission_timeout a RtxTimerId.T3RTX n).will_send_forward_tsn =
        a.will_send_forward_tsn) ∧
    (a.use_forward_tsn = true →
      (∃ k, (on_retransmission_timeout a RtxTimerId.T3RTX n).advanced_peer_tsn_ack_point =
          w32 (a.advanced_peer_tsn_ack_point + k) ∧
        (∀ m, 1 ≤ m → m ≤ k →
          ∃ c, a.inflight_queue.get (w32 (a.advanced_peer_tsn_ack_point + m)) = some c ∧
            c.abandoned = true) ∧
        (a.inflight_queue.get
            (w32 (a.advanced_peer_tsn_ack_point + k + 1)) = none ∨
          ∃ c, a.inflight_queue.get
              (w32 (a.advanced_peer_tsn_ack_point + k + 1)) = some c ∧
            c.abandoned = false)) ∧
      (on_retransmission_timeout a RtxTimerId.T3RTX n).will_send_forward_tsn =
        (a.will_send_forward_tsn ||
          sna32gt (on_retransmission_timeout a RtxTimerId.T3RTX n).advanced_peer_tsn_ack_point
            a.cumulative_tsn_ack_point)) := by
  obtain ⟨k, hk, hres, hall, hstop⟩ :=
    advance_past_abandoned_spec a.inflight_queue tsnMod a.advanced_peer_tsn_ack_point hadv
  have hklen : k ≤ a.inflight_queue.len := by
    refine advance_steps_le_len a.inflight_queue a.advanced_peer_tsn_ack_point k hk ?_
    intro m h1 h2
    exact hall m h1 h2
  have hkfuel : k < tsnMod := by omega
  simp only [on_retransmission_timeout, awake_write_loop]
  by_cases huf : a.use_forward_tsn = true
  · simp only [huf, if_true]
    split
    · rename_i hgt
      refine ⟨by simp, by simp, ?_, by simp, by simp, ?_⟩
      · intro c hc
        exact mark_all_to_retrasmit_spec _ c (by simpa using hc) 
      · intro _
        refine ⟨⟨k, by simpa using hres, hall, hstop hkfuel⟩, ?_⟩
        simp [hgt]
    · rename_i hgt
      refine ⟨by simp, by simp, ?_, by simp, by simp, ?_⟩
      · intro c hc
        exact mark_all_to_retrasmit_spec _ c (by simpa using hc)
      · intro _
        refine ⟨⟨k, by simpa using hres, hall, hstop hkfuel⟩, ?_⟩
        simp [eq_false_of_ne_true hgt]
  · have huf2 : a.use_forward_tsn = false := eq_false_of_ne_true huf
    simp only [huf2, if_false]
    refine ⟨by simp, by simp, ?_, by simp, by intro _; exact ⟨by simp, by simp⟩, by simp⟩
    intro c hc
    exact mark_all_to_retrasmit_spec _ c (by simpa using hc)

/-- C6 witness: the amended theorem applied at a concrete T3-rtx
expiry. -/
theorem c6_t3rtx_collapse_and_mark_witness :
    (on_retransmission_timeout c6w_assoc RtxTimerId.T3RTX 0).ssthresh =
      max (c6w_assoc.cwnd / 2) (4 * c6w_assoc.mtu) ∧
    (on_retransmission_timeout c6w_assoc RtxTimerId.T3RTX 0).cwnd = c6w_assoc.mtu ∧
    (on_retransmission_timeout c6w_assoc RtxTimerId.T3RTX 0).awoken = true :=
  ⟨(c6_t3rtx_collapse_and_mark c6w_assoc 0 (by decide) (by decide)).1,
   (c6_t3rtx_collapse_and_mark c6w_assoc 0 (by decide) (by decide)).2.1,
   (c6_t3rtx_collapse_and_mark c6w_assoc 0 (by decide) (by decide)).2.2.2.1⟩

/-- Popping the head of the unordered FIFO keeps the pending queue
well-formed. -/
theorem wf_after_pop_unordered (c : ChunkPayloadData) (ut oq : List ChunkPayloadData)
    (hut : ut.all (fun x => x.unordered) = true)
    (ho : oq.all (fun x => !x.unordered) = true)
    (hchain : chk_frag c.ending_fragment ut = true)
    (hoq : chk_frag true oq = true) :
    PendingQueue.wf ⟨ut, oq, !c.ending_fragment, true⟩ = true := by
  cases hef : c.ending_fragment <;> rw [hef] at hchain <;>
    simp_all [PendingQueue.wf]

/-- Popping the head of the ordered FIFO keeps the pending queue
well-formed. -/
theorem wf_after_pop_ordered (c : ChunkPayloadData) (uq ot : List ChunkPayloadData)
    (hu : uq.all (fun x => x.unordered) = true)
    (hot : ot.all (fun x => !x.unordered) = true)
    (huq : chk_frag true uq = true)
    (hchain : chk_frag c.ending_fragment ot = true) :
    PendingQueue.wf ⟨uq, ot, !c.ending_fragment, false⟩ = true := by
  cases hef : c.ending_fragment <;> rw [hef] at hchain <;>
    simp_all [PendingQueue.wf]

/-- On a well-formed pending queue, popping with the peeked chunk's own
beginning-fragment and unordered bits succeeds, returns exactly that
chunk, preserves well-formedness, and shrinks the queue by one. -/
theorem wf_peek_pop (q : PendingQueue) (c : ChunkPayloadData)
    (hwf : q.wf = true) (hp : q.peek = some c) :
    (q.pop c.beginning_fragment c.unordered).1 = some c ∧
    (q.pop c.beginning_fragment c.unordered).2.wf = true ∧
    (q.pop c.beginning_fragment c.unordered).2.len + 1 = q.len := by
  obtain ⟨uq, oq, sel, uis⟩ := q
  simp only [PendingQueue.wf, Bool.and_eq_true] at hwf
  obtain ⟨⟨hu, ho⟩, hsel⟩ := hwf
  cases sel
  · simp only [if_neg (by simp : ¬(false = true)), Bool.and_eq_true] at hsel
    obtain ⟨huq, hoq⟩ := hsel
    cases uq with
    | nil =>
        cases oq with
        | nil => simp [PendingQueue.peek] at hp
        | cons c0 ot =>
            obtain rfl : c0 = c := by simpa [PendingQueue.peek] using hp
            rw [chk_frag, Bool.and_eq_true, beq_iff_eq] at hoq
            obtain ⟨hbf, hrest⟩ := hoq
            have hcu : c0.unordered = false := by
              have := (List.all_eq_true.1 ho) c0 (by simp)
              simpa using this
            simp only [PendingQueue.pop, PendingQueue.len, hbf, hcu,
              if_neg (by simp : ¬(false = true)), Bool.not_true,
              if_neg (by simp : ¬(false = true))]
            refine ⟨by simp, ?_, by simp⟩
            refine wf_after_pop_ordered c0 [] ot hu ?_ huq hrest
            have := (List.all_eq_true.1 ho)
            simp only [List.all_eq_true]
            intro x hx
            exact this x (by simp [hx])
    | cons c0 ut =>
        obtain rfl : c0 = c := by simpa [PendingQueue.peek] using hp
        rw [chk_frag, Bool.and_eq_true, beq_iff_eq] at huq
        obtain ⟨hbf, hrest⟩ := huq
        have hcu : c0.unordered = true := (List.all_eq_true.1 hu) c0 (by simp)
        simp only [PendingQueue.pop, PendingQueue.len, hbf, hcu,
          if_neg (by simp : ¬(false = true)), Bool.not_true,
          if_pos rfl]
        refine ⟨by simp, ?_, by simp [Nat.add_right_comm]⟩
        refine wf_after_pop_unordered c0 ut oq ?_ ho hrest hoq
        simp only [List.all_eq_true]
        intro x hx
        exact (List.all_eq_true.1 hu) x (by simp [hx])
  · cases uis
    · simp only [Bool.false_eq_true, Bool.true_eq_false, if_true, if_false,
        reduceIte, Bool.and_eq_true] at hsel
      obtain ⟨huq, hoq⟩ := hsel
      cases oq with
      | nil => simp [chk_frag] at hoq
      | cons c0 ot =>
          obtain rfl : c0 = c := by simpa [PendingQueue.peek] using hp
          rw [chk_frag, Bool.and_eq_true, beq_iff_eq] at hoq
          obtain ⟨hbf, hrest⟩ := hoq
          simp only [PendingQueue.pop, PendingQueue.len, if_pos rfl,
            if_neg (by simp : ¬(false = true))]
          refine ⟨by simp, ?_, by simp [Nat.add_assoc]⟩
          refine wf_after_pop_ordered c0 uq ot hu ?_ huq hrest
          simp only [List.all_eq_true]
          intro x hx
          exact (List.all_eq_true.1 ho) x (by simp [hx])
    · simp only [Bool.false_eq_true, Bool.true_eq_false, if_true, if_false,
        reduceIte, Bool.and_eq_true] at hsel
      obtain ⟨huq, hoq⟩ := hsel
      cases uq with
      | nil => simp [chk_frag] at huq
      | cons c0 ut =>
          obtain rfl : c0 = c := by simpa [PendingQueue.peek] using hp
          rw [chk_frag, Bool.and_eq_true, beq_iff_eq] at huq
          obtain ⟨hbf, hrest⟩ := huq
          simp only [PendingQueue.pop, PendingQueue.len, if_pos rfl]
          refine ⟨by simp, ?_, by simp [Nat.add_right_comm]⟩
          refine wf_after_pop_unordered c0 ut oq ?_ ho hrest hoq
          simp only [List.all_eq_true]
          intro x hx
          exact (List.all_eq_true.1 hu) x (by simp [hx])

/-- An empty pending queue has nothing to peek. -/
theorem peek_of_len_zero (q : PendingQueue) (h : q.len = 0) : q.peek = none := by
  obtain ⟨uq, oq, sel, uis⟩ := q
  simp only [PendingQueue.len, Nat.add_eq_zero_iff, List.length_eq_zero] at h
  obtain ⟨rfl, rfl⟩ := h
  cases sel <;> cases uis <;> simp [PendingQueue.peek]

/-- When the pending-queue pop succeeds, moving the chunk to the
inflight queue returns a chunk and leaves the popped pending queue in
the association. -/
theorem move_pending_result (a : Association) (bf uo : Bool)
    (c : ChunkPayloadData) (q : PendingQueue)
    (h : a.pending_queue.pop bf uo = (some c, q)) :
    ∃ ch a2, move_pending_data_chunk_to_inflight_queue a bf uo = (some ch, a2) ∧
      a2.pending_queue = q := by
  unfold move_pending_data_chunk_to_inflight_queue
  rw [h]
  exact ⟨_, _, rfl, by simp [generate_next_tsn]⟩

/-- The pop loop, given enough fuel, preserves pending-queue
well-formedness and stops early only at the cwnd or rwnd limit: any
chunk still peekable at exit has data and would violate a limit. -/
theorem pop_pending_loop_spec (fuel : Nat) :
    ∀ (a : Association) (chunks : List ChunkPayloadData) (sis : List Nat),
    a.pending_queue.wf = true → a.pending_queue.len ≤ fuel →
    (pop_pending_loop fuel a chunks sis).2.2.pending_queue.wf = true ∧
    (∀ c, (pop_pending_loop fuel a chunks sis).2.2.pending_queue.peek = some c →
      c.userDataLen ≠ 0 ∧
      ((pop_pending_loop fuel a chunks sis).2.2.cwnd <
         (pop_pending_loop fuel a chunks sis).2.2.inflight_queue.get_num_bytes
           + c.userDataLen ∨
       (pop_pending_loop fuel a chunks sis).2.2.rwnd < c.userDataLen)) := by
  induction fuel with
  | zero =>
      intro a chunks sis hwf hlen
      have hl0 : a.pending_queue.len = 0 := Nat.le_zero.1 hlen
      have hpk := peek_of_len_zero a.pending_queue hl0
      rw [pop_pending_loop]
      exact ⟨hwf, fun c hc => absurd (hpk ▸ hc) (by simp)⟩
  | succ n ih =>
      intro a chunks sis hwf hlen
      rcases hpk : a.pending_queue.peek with _ | c
      · have hres : pop_pending_loop (n + 1) a chunks sis = (chunks, sis, a) := by
          rw [pop_pending_loop, hpk]
        rw [hres]
        exact ⟨hwf, fun c hc => absurd (hpk ▸ hc) (by simp)⟩
      · obtain ⟨hpop1, hpopwf, hpoplen⟩ := wf_peek_pop a.pending_queue c hwf hpk
        generalize hgp : a.pending_queue.pop c.beginning_fragment c.unordered = p
          at hpop1 hpopwf hpoplen
        obtain ⟨o, q⟩ := p
        simp only at hpop1 hpopwf hpoplen
        subst hpop1
        have hqlen : q.len ≤ n := by omega
        by_cases hz : c.userDataLen = 0
        · have hres : pop_pending_loop (n + 1) a chunks sis =
              pop_pending_loop n { a with pending_queue := q } chunks
                (sis ++ [c.stream_identifier]) := by
            rw [pop_pending_loop, hpk]
            simp only [if_pos hz, hgp]
          rw [hres]
          exact ih _ _ _ (by simpa using hpopwf) (by simpa using hqlen)
        · by_cases hcw : a.cwnd < a.inflight_queue.get_num_bytes + c.userDataLen
          · have hres : pop_pending_loop (n + 1) a chunks sis = (chunks, sis, a) := by
              rw [pop_pending_loop, hpk]
              simp only []
              rw [if_neg hz, if_pos hcw]
            rw [hres]
            refine ⟨hwf, fun c2 hc2 => ?_⟩
            rw [hpk] at hc2
            obtain rfl : c = c2 := Option.some.inj hc2
            exact ⟨hz, Or.inl hcw⟩
          · by_cases hrw : a.rwnd < c.userDataLen
            · have hres : pop_pending_loop (n + 1) a chunks sis = (chunks, sis, a) := by
                rw [pop_pending_loop, hpk]
                simp only []
                rw [if_neg hz, if_neg hcw, if_pos hrw]
              rw [hres]
              refine ⟨hwf, fun c2 hc2 => ?_⟩
              rw [hpk] at hc2
              obtain rfl : c = c2 := Option.some.inj hc2
              exact ⟨hz, Or.inr hrw⟩
            · have hgp1 :
                  ({ a with rwnd := a.rwnd - c.userDataLen } :
                    Association).pending_queue.pop c.beginning_fragment c.unordered
                    = (some c, q) := hgp
              obtain ⟨ch, a2, hmv, hq2⟩ :=
                move_pending_result _ c.beginning_fragment c.unordered c q hgp1
              have hres : pop_pending_loop (n + 1) a chunks sis =
                  pop_pending_loop n a2 (chunks ++ [ch]) sis := by
                rw [pop_pending_loop, hpk]
                simp only []
                rw [if_neg hz, if_neg hcw, if_neg hrw]
                simp only [hmv]
              rw [hres]
              exact ih _ _ _ (hq2 ▸ hpopwf) (hq2 ▸ hqlen)

/-- C7 counterexample: with only a zero-length stream-reset marker
pending, no data chunk is popped and the inflight queue is empty, yet
no zero-window probe is forced (the claim demands exactly one data
chunk); the marker only lands in sis_to_reset. -/
theorem c7_no_probe_for_reset_marker :
    c7_assoc.pending_queue.len ≠ 0 ∧
    (pop_pending_data_chunks_to_send c7_assoc).1.1 = [] ∧
    (pop_pending_data_chunks_to_send c7_assoc).2.inflight_queue.len = 0 ∧
    (pop_pending_data_chunks_to_send c7_assoc).1.2 = [7] := by
  refine ⟨by decide, ?_, ?_, ?_⟩ <;> rfl

/-- C7 (amended): on a well-formed pending queue, (1) the pop loop
stops early only when the peeked chunk has data and sending it would
exceed cwnd or rwnd, and (2) if the loop popped no data chunk, the
inflight queue is empty and a chunk remains peekable in the pending
queue, then pop_pending_data_chunks_to_send forces out exactly one
data chunk as a zero-window probe. -/
theorem c7_pop_until_limits_and_probe (a : Association)
    (hwf : a.pending_queue.wf = true) :
    (∀ c, (pop_pending_loop a.pending_queue.len a [] []).2.2.pending_queue.peek = some c →
      c.userDataLen ≠ 0 ∧
      ((pop_pending_loop a.pending_queue.len a [] []).2.2.cwnd <
        (pop_pending_loop a.pending_queue.len a [] []).2.2.inflight_queue.get_num_bytes
          + c.userDataLen ∨
       (pop_pending_loop a.pending_queue.len a [] []).2.2.rwnd < c.userDataLen)) ∧
    (∀ c, a.pending_queue.len ≠ 0 →
      (pop_pending_loop a.pending_queue.len a [] []).1 = [] →
      (pop_pending_loop a.pending_queue.len a [] []).2.2.inflight_queue.len = 0 →
      (pop_pending_loop a.pending_queue.len a [] []).2.2.pending_queue.peek = some c →
      (pop_pending_data_chunks_to_send a).1.1.length = 1) := by
  obtain ⟨hLwf, hstop⟩ := pop_pending_loop_spec a.pending_queue.len a [] [] hwf (le_refl _)
  refine ⟨hstop, ?_⟩
  intro c hne hchunks hinf hpk
  unfold pop_pending_data_chunks_to_send
  rw [if_neg hne]
  generalize hL : pop_pending_loop a.pending_queue.len a [] [] = L
    at hLwf hstop hchunks hinf hpk
  obtain ⟨chunks0, sis0, aL⟩ := L
  simp only at hLwf hchunks hinf hpk
  subst hchunks
  simp only [List.isEmpty_nil, hpk]
  obtain ⟨hpop1, hpopwf, hpoplen⟩ := wf_peek_pop aL.pending_queue c hLwf hpk
  have hpair : aL.pending_queue.pop c.beginning_fragment c.unordered =
      (some c, (aL.pending_queue.pop c.beginning_fragment c.unordered).2) := by
    rw [← hpop1]
  obtain ⟨ch, a2, hmv, _⟩ := move_pending_result aL c.beginning_fragment c.unordered c _ hpair
  simp only [hmv]
  rw [if_pos (And.intro trivial hinf)]
  rfl

theorem c7_pop_until_limits_and_probe_witness :
    c7w_assoc.pending_queue.wf = true ∧
    (pop_pending_data_chunks_to_send c7w_assoc).1.1.length = 1 :=
  ⟨by decide,
   (c7_pop_until_limits_and_probe c7w_assoc (by decide)).2 c7w_head (by decide)
     (by decide) (by decide) (by decide)⟩

end Sctp
